import Mathlib

/-!
# Verification of the ColaTourFareScraper parsing core

This file gives a shallow embedding, in Lean 4, of the text-parsing core of
the ColaTourFareScraper repository (`colatour_fetch_data.py` /
`data_cleaner.py`): the fare-formula decoder (`extract_and_clean_price_data`),
the flight/cabin and date/duration text normalizers, the flight-record
assembler, the direction classifier and the baggage reconciler, together with
theorems settling the specification claims about them.

The Python functions work by `re` pattern matching over strings.  To keep the
embedding faithful, a small backtracking regular-expression engine is defined
(`Rx` / `reMatch`): the source's patterns only ever quantify single character
classes (`\s*`, `[\d,，]+`, `[A-Z0-9]{2,3}`, `\S*?`, …), so the engine needs
greedy / lazy / bounded repetition of a character class, alternation, optional
groups, capture groups and the end anchor — each Python pattern is transcribed
node by node into an `Rx` value next to the function that uses it.  The engine
implements Python's leftmost, backtracking match order (greedy alternatives
first, lazy shortest-first), and `$` matches at the end of the string or just
before a final newline, as in Python.

Modelling conventions (each noted again at the definition it concerns):
* strings are processed as `List Char`; Python's `\d` / `int()` digits are
  modelled as ASCII digits (the scraped site emits ASCII digits);
* Python `float` values are modelled as exact rationals (`ℚ`): the decoder
  only parses short decimal literals such as `1.021`, stores them, and
  truncates `int(float(...))` toward zero; binary rounding, `inf`/`nan`
  literals, exponents and underscore separators of Python numerals are not
  modelled;
* `datetime` / `timedelta` are modelled by plain record/integer values with
  the calendar-validity rules of the `datetime` constructor;
* Selenium/DOM inputs are modelled by the text they deliver to the parsing
  code (a dialog text, the per-row cell texts, a block's class and title
  texts); the interactive `breakpoint()` escalation is modelled as an explicit
  anomaly signal in the function's result.
-/

/-! ## A small backtracking regex engine

`Rx` is the pattern syntax actually needed by the source's patterns.  The
matcher `reMatch` is written in continuation-passing style: the continuation
receives the remaining (suffix) input and the capture groups collected so
far, and the matcher explores alternatives in exactly Python's order,
returning the first success. -/

/-- Capture groups: group number paired with the captured substring. -/
abbrev Groups := List (Nat × List Char)

/-- Regular-expression syntax.  Quantifiers apply to character classes only,
which is all the source's patterns use; this keeps the matcher structurally
terminating. -/
inductive Rx where
  | eps
  | cls (p : Char → Bool)
  | lits (cs : List Char)
  | seq (a b : Rx)
  | alt (a b : Rx)
  | opt (a : Rx)
  | starCls (p : Char → Bool)
  | plusCls (p : Char → Bool)
  | lazyStarCls (p : Char → Bool)
  | repCls (p : Char → Bool) (lo ext : Nat)
  | group (n : Nat) (a : Rx)
  | eos

/-- Greedy `p*`: consume as many `p`-characters as possible, backtracking one
character at a time when the continuation fails. -/
def starGreedy {α : Type} (p : Char → Bool) :
    List Char → Groups → (List Char → Groups → Option α) → Option α
  | [], g, k => k [] g
  | c :: s, g, k =>
    if p c then
      match starGreedy p s g k with
      | some r => some r
      | none => k (c :: s) g
    else k (c :: s) g

/-- Lazy `p*?`: try the continuation first, consuming a `p`-character only
when it fails. -/
def starLazy {α : Type} (p : Char → Bool) :
    List Char → Groups → (List Char → Groups → Option α) → Option α
  | [], g, k => k [] g
  | c :: s, g, k =>
    match k (c :: s) g with
    | some r => some r
    | none => if p c then starLazy p s g k else none

/-- Greedy repetition of at most `ext` further `p`-characters (the optional
tail of a bounded quantifier), longest first. -/
def repUpTo {α : Type} (p : Char → Bool) :
    Nat → List Char → Groups → (List Char → Groups → Option α) → Option α
  | 0, s, g, k => k s g
  | _ + 1, [], g, k => k [] g
  | ext + 1, c :: s, g, k =>
    if p c then
      match repUpTo p ext s g k with
      | some r => some r
      | none => k (c :: s) g
    else k (c :: s) g

/-- The mandatory part of a bounded quantifier: exactly `lo` `p`-characters. -/
def repExact {α : Type} (p : Char → Bool) :
    Nat → List Char → Groups → (List Char → Groups → Option α) → Option α
  | 0, s, g, k => k s g
  | _ + 1, [], _, _ => none
  | lo + 1, c :: s, g, k => if p c then repExact p lo s g k else none

/-- Greedy bounded repetition `p{lo, lo+ext}`: the mandatory `lo` characters
(no choice points: a character class either matches or not), then greedily up
to `ext` more. -/
def repGreedy {α : Type} (p : Char → Bool) (lo ext : Nat) (s : List Char)
    (g : Groups) (k : List Char → Groups → Option α) : Option α :=
  repExact p lo s g (fun s' g' => repUpTo p ext s' g' k)

/-- The matcher.  `reMatch r s g k` matches `r` against a prefix of `s` with
capture groups `g` collected so far, calling `k` on the remainder and the
extended groups; alternatives are explored in Python's backtracking order and
the first success wins.  `eos` is Python's `$` (end of input, or just before
a final newline). -/
def reMatch {α : Type} : Rx → List Char → Groups → (List Char → Groups → Option α) → Option α
  | .eps, s, g, k => k s g
  | .cls p, s, g, k =>
    match s with
    | [] => none
    | c :: s' => if p c then k s' g else none
  | .lits cs, s, g, k => if cs.isPrefixOf s then k (s.drop cs.length) g else none
  | .seq a b, s, g, k => reMatch a s g (fun s' g' => reMatch b s' g' k)
  | .alt a b, s, g, k =>
    match reMatch a s g k with
    | some r => some r
    | none => reMatch b s g k
  | .opt a, s, g, k =>
    match reMatch a s g k with
    | some r => some r
    | none => k s g
  | .starCls p, s, g, k => starGreedy p s g k
  | .plusCls p, s, g, k =>
    match s with
    | [] => none
    | c :: s' => if p c then starGreedy p s' g k else none
  | .lazyStarCls p, s, g, k => starLazy p s g k
  | .repCls p lo ext, s, g, k => repGreedy p lo ext s g k
  | .group n a, s, g, k =>
    reMatch a s g (fun s' g' => k s' ((n, s.take (s.length - s'.length)) :: g'))
  | .eos, s, g, k => if s = [] ∨ s = ['\n'] then k s g else none

/-- `re.match`: anchored at the start, returning the capture groups. -/
def reMatchTop (r : Rx) (s : List Char) : Option Groups :=
  reMatch r s [] (fun _ g => some g)

/-- Anchored match returning the unconsumed remainder as well (used for the
`strptime` model, which rejects trailing unconverted data). -/
def reMatchRem (r : Rx) (s : List Char) : Option (List Char × Groups) :=
  reMatch r s [] (fun rem g => some (rem, g))

/-- `re.search`: try an anchored match at each position, leftmost first. -/
def reSearch (r : Rx) : List Char → Option Groups
  | [] => reMatchTop r []
  | c :: t =>
    match reMatchTop r (c :: t) with
    | some g => some g
    | none => reSearch r t

/-- Captured text of group `n`, if the group participated in the match. -/
def grp (g : Groups) (n : Nat) : Option (List Char) :=
  (g.find? (fun x => x.1 == n)).map Prod.snd

/-- Captured text of group `n`, defaulting to the empty string. -/
def grpD (g : Groups) (n : Nat) : List Char :=
  (grp g n).getD []

/-! ## Character classes and string primitives -/

/-- Python's `\s` for `str` patterns (also the default `str.strip()` /
`str.split()` separator set): ASCII whitespace plus the Unicode whitespace
characters. -/
def pySpace (c : Char) : Bool :=
  c = ' ' || c = '\t' || c = '\n' || c = '\r' || c = '\x0b' || c = '\x0c' ||
  c = '\x1c' || c = '\x1d' || c = '\x1e' || c = '\x1f' || c = '\x85' ||
  c = '\xa0' || c.toNat = 0x1680 || (0x2000 ≤ c.toNat && c.toNat ≤ 0x200a) ||
  c.toNat = 0x2028 || c.toNat = 0x2029 || c.toNat = 0x202f ||
  c.toNat = 0x205f || c.toNat = 0x3000

/-- Python's `\d`, restricted to ASCII digits (the scraped site emits ASCII
digits; other Unicode decimal digits are not modelled). -/
def pyDigit (c : Char) : Bool := c.isDigit

/-- Python's `\w`: ASCII alphanumerics, underscore, and the CJK unified
ideographs (the only word characters occurring in the scraped text). -/
def pyWord (c : Char) : Bool :=
  c.isAlphanum || c = '_' || (0x4e00 ≤ c.toNat && c.toNat ≤ 0x9fff)

/-- The class `[一-龥A-Za-z]` used by the cabin-code patterns. -/
def cjkOrLatin (c : Char) : Bool :=
  (0x4e00 ≤ c.toNat && c.toNat ≤ 0x9fa5) || ('A' ≤ c && c ≤ 'Z') || ('a' ≤ c && c ≤ 'z')

/-- The class `[A-Z]`. -/
def upperAZ (c : Char) : Bool := 'A' ≤ c && c ≤ 'Z'

/-- The class `[A-Z0-9]`. -/
def upperAZ09 (c : Char) : Bool := upperAZ c || pyDigit c

/-- The class `[\d,，]` of the fare-formula number tokens (digits with
half-width or full-width thousands separators). -/
def numSep (c : Char) : Bool := pyDigit c || c = ',' || c = '，'

/-- `\s*`. -/
def wsRx : Rx := .starCls pySpace

/-- A literal string pattern. -/
def litS (s : String) : Rx := .lits s.data

/-- Sequence a list of patterns. -/
def seqL (rs : List Rx) : Rx := rs.foldr .seq .eps

/-- A case-insensitive literal (for the `re.IGNORECASE` patterns; the
case-insensitive tokens of the source are ASCII: `KP`, `TAX`). -/
def litCI (s : String) : Rx :=
  seqL (s.data.map fun a => .cls (fun c => c.toLower == a.toLower))

/-- Python `str.strip()` with no argument: drop leading and trailing
whitespace. -/
def pyStrip (s : List Char) : List Char :=
  ((s.dropWhile pySpace).reverse.dropWhile pySpace).reverse

/-- Python `str.split()` with no argument: split on whitespace runs,
discarding empty pieces.  Written with a structural fuel argument (each
recursive call shortens the list, so `length + 1` fuel always suffices; the
fuel keeps the definition kernel-reducible). -/
def splitWSAux : Nat → List Char → List (List Char)
  | 0, _ => []
  | _ + 1, [] => []
  | fuel + 1, c :: t =>
    if pySpace c then splitWSAux fuel t
    else (c :: t.takeWhile (fun x => !pySpace x)) ::
      splitWSAux fuel (t.dropWhile (fun x => !pySpace x))

def splitWS (s : List Char) : List (List Char) := splitWSAux (s.length + 1) s

/-- Decimal value of a digit string (most significant first). -/
def digitsToNat (ds : List Char) : Nat :=
  ds.foldl (fun a c => 10 * a + (c.toNat - '0'.toNat)) 0

/-- Decimal digit string of a natural number, as produced by Python
`str(int)` / f-string interpolation of a non-negative integer (structural
fuel: `n / 10 < n` for `n ≥ 10`, so `n + 1` fuel always suffices). -/
def natDigitsAux : Nat → Nat → List Char
  | 0, _ => []
  | fuel + 1, n =>
    if n < 10 then [Nat.digitChar n]
    else natDigitsAux fuel (n / 10) ++ [Nat.digitChar (n % 10)]

def natDigitsRepr (n : Nat) : List Char := natDigitsAux (n + 1) n

/-- Python `str(n)` for a natural number, as a Lean string. -/
def natStr (n : Nat) : String := String.mk (natDigitsRepr n)

/-! ## Python numeral parsing (`int(...)`, `float(...)`)

`int(float(...))` truncates toward zero.  Python `float` is modelled as an
exact rational: the decoder only ever converts short decimal literals.
Binary (IEEE-754) rounding, overflow to `inf`, the literals `inf`/`nan`,
exponent notation and underscore digit separators are not modelled. -/

/-- A non-empty all-digit string, with its decimal value. -/
def decDigits (ds : List Char) : Option Nat :=
  if ds ≠ [] ∧ ds.all pyDigit then some (digitsToNat ds) else none

/-- The optional sign of a Python numeral: the negativity flag and the rest
(`+`/no sign both give `false`). -/
def pySign (t : List Char) : Bool × List Char :=
  match t with
  | [] => (false, [])
  | c :: ds =>
    if c = '+' then (false, ds)
    else if c = '-' then (true, ds)
    else (false, c :: ds)

/-- Python `int(s)` for a string: optional surrounding whitespace, optional
sign, then decimal digits. -/
def pyIntOfChars (s : List Char) : Option Int :=
  let (neg, ds) := pySign (pyStrip s)
  (decDigits ds).map fun n => if neg then -(n : Int) else (n : Int)

/-- The unsigned body accepted by the modelled `float(s)`: integer digits and
fractional digits, for the shapes `D+`, `D+.D*`, `.D+`. -/
def pyFloatBody (t : List Char) : Option (List Char × List Char) :=
  match t.dropWhile pyDigit with
  | [] => if t.takeWhile pyDigit ≠ [] then some (t.takeWhile pyDigit, []) else none
  | c :: fr =>
    if c = '.' ∧ fr.all pyDigit ∧ (t.takeWhile pyDigit ≠ [] ∨ fr ≠ []) then
      some (t.takeWhile pyDigit, fr)
    else none

/-- The shape accepted by the modelled `float(s)`: sign flag, integer digits,
fractional digits, after stripping surrounding whitespace. -/
def pyFloatParts (s : List Char) : Option (Bool × List Char × List Char) :=
  let (neg, t) := pySign (pyStrip s)
  (pyFloatBody t).map fun x => (neg, x)

/-- Python `float(s)`, as an exact rational (the value
`(ip . fr) = (ip·10^|fr| + fr) / 10^|fr|`, negated under a `-` sign). -/
def pyFloatOfChars (s : List Char) : Option ℚ :=
  (pyFloatParts s).map fun x =>
    match x with
    | (neg, ip, fr) =>
      let v : ℚ :=
        mkRat ((digitsToNat ip * 10 ^ fr.length + digitsToNat fr : Nat) : Int)
          (10 ^ fr.length)
      if neg then -v else v

/-- Truncation of a rational toward zero, as performed by Python `int(float)`. -/
def ratTrunc (q : ℚ) : Int :=
  if 0 ≤ q.num then ((q.num.toNat / q.den : Nat) : Int)
  else -(((-q.num).toNat / q.den : Nat) : Int)

/-- `parse_int` of the price extractor: strip spaces and half-width or full-width
commas, try `int(...)`, fall back to `int(float(...))`, and yield `0` when
neither parses. -/
def parse_int (t : List Char) : Int :=
  let cleaned := t.filter fun c => !(c = ' ' || c = ',' || c = '，')
  match pyIntOfChars cleaned with
  | some n => n
  | none =>
    match pyFloatOfChars cleaned with
    | some q => ratTrunc q
    | none => 0

/-- `parse_float` of the price extractor: fold the full-width comma into the
half-width one, drop thousands separators, and parse as a float (modelled
exactly); unparseable text yields `0.0`. -/
def parse_float (t : List Char) : ℚ :=
  let cleaned := t.filter fun c => !(c = ',' || c = '，')
  match pyFloatOfChars cleaned with
  | some q => q
  | none => 0

/-! ## The fare-formula decoder (`extract_and_clean_price_data`)

The Selenium plumbing (waiting for and locating the `DBGModal` dialog) is
modelled by the function's input: `none` when no dialog text could be
obtained (missing driver, timeout, missing element — all of which return the
default record in the source), `some text` for the dialog's text.  The
`breakpoint()` escalation on an unrecognized formula shape is modelled as a
`Bool` anomaly signal paired with the record. -/

/-- The price record (`record` dict of `extract_and_clean_price_data`), with
its Python key names.  Factors are exact rationals (see the header note on
floats). -/
structure PriceRecord where
  gdsType : String
  «稅金» : Int
  «總售價» : Int
  «票型» : String
  «基礎票價» : Int
  «折讓百分比» : Int
  «折扣» : Int
  «票價加價成數» : ℚ
  «稅金加價成數» : ℚ
  «固定金額» : Int
  «公式類型» : Int
  deriving DecidableEq, Repr

/-- The record's initial value (all defaults, shape `-1`). -/
def initPriceRecord : PriceRecord :=
  { gdsType := "", «稅金» := 0, «總售價» := 0, «票型» := "", «基礎票價» := 0,
    «折讓百分比» := 0, «折扣» := 0, «票價加價成數» := 0, «稅金加價成數» := 0,
    «固定金額» := 0, «公式類型» := -1 }

/-- `GDS\s*Type[:：]\s*([^\s\r\n]+)` (note `[^\s\r\n]` is just `[^\s]`). -/
def gdsRx : Rx :=
  seqL [litS "GDS", wsRx, litS "Type", .cls (fun c => c = ':' || c = '：'), wsRx,
    .group 1 (.plusCls (fun c => !pySpace c))]

/-- `大人公式[:：]\s*(.*)`. -/
def formulaRx : Rx :=
  seqL [litS "大人公式", .cls (fun c => c = ':' || c = '：'), wsRx,
    .group 1 (.starCls (fun c => c ≠ '\n'))]

/-- `[0-9]+(?:\.[0-9]+)?` — a decimal factor. -/
def decimalRx : Rx :=
  .seq (.plusCls pyDigit) (.opt (.seq (litS ".") (.plusCls pyDigit)))

/-- Formula shape 1 (`type1_pattern`):
`^\(\s*(票面|淨價)\s*[\d,，]+\s*\*\s*\[\s*KP\s*\d+\s*\]\s*-\s*折扣\s*[\d,，]+\s*\)\s*\*\s*[0-9]+(?:\.[0-9]+)?\s*\+\s*TAX\s*[\d,，]+\s*\*\s*[0-9]+(?:\.[0-9]+)?\s*\+\s*固定金額\s*[-]?[\d,，]+\s*=\s*[\d,，]+\s*$`
(compiled with `re.IGNORECASE`, which affects only `KP` and `TAX`). -/
def type1Rx : Rx :=
  seqL [litS "(", wsRx, .group 1 (.alt (litS "票面") (litS "淨價")), wsRx,
    .plusCls numSep, wsRx, litS "*", wsRx, litS "[", wsRx, litCI "KP", wsRx,
    .plusCls pyDigit, wsRx, litS "]", wsRx, litS "-", wsRx, litS "折扣", wsRx,
    .plusCls numSep, wsRx, litS ")", wsRx, litS "*", wsRx, decimalRx, wsRx,
    litS "+", wsRx, litCI "TAX", wsRx, .plusCls numSep, wsRx, litS "*", wsRx,
    decimalRx, wsRx, litS "+", wsRx, litS "固定金額", wsRx, .opt (litS "-"),
    .plusCls numSep, wsRx, litS "=", wsRx, .plusCls numSep, wsRx, .eos]

/-- Formula shape 2 (`type2_pattern`):
`^\(\s*\(\s*(票面|淨價)\s*[\d,，]+\s*-\s*折扣\s*[\d,，]+\s*\)\s*\*\s*\[\s*KP\s*\d+\s*\]\s*\)\s*\*\s*…` (same tail as shape 1). -/
def type2Rx : Rx :=
  seqL [litS "(", wsRx, litS "(", wsRx, .group 1 (.alt (litS "票面") (litS "淨價")), wsRx,
    .plusCls numSep, wsRx, litS "-", wsRx, litS "折扣", wsRx, .plusCls numSep, wsRx,
    litS ")", wsRx, litS "*", wsRx, litS "[", wsRx, litCI "KP", wsRx,
    .plusCls pyDigit, wsRx, litS "]", wsRx, litS ")", wsRx, litS "*", wsRx,
    decimalRx, wsRx, litS "+", wsRx, litCI "TAX", wsRx, .plusCls numSep, wsRx,
    litS "*", wsRx, decimalRx, wsRx, litS "+", wsRx, litS "固定金額", wsRx,
    .opt (litS "-"), .plusCls numSep, wsRx, litS "=", wsRx, .plusCls numSep,
    wsRx, .eos]

/-- `\(\s*([一-龥A-Za-z]+)\s*([\d,，]+)` — fare-basis label and base fare. -/
def typePriceRx1 : Rx :=
  seqL [litS "(", wsRx, .group 1 (.plusCls cjkOrLatin), wsRx, .group 2 (.plusCls numSep)]

/-- `\(\s*\(\s*([一-龥A-Za-z]+)\s*([\d,，]+)` — the shape-2 variant tried second. -/
def typePriceRx2 : Rx :=
  seqL [litS "(", wsRx, litS "(", wsRx, .group 1 (.plusCls cjkOrLatin), wsRx,
    .group 2 (.plusCls numSep)]

/-- `\[\s*KP\s*(\d+)\s*\]` (ignore-case) — the discount-percentage code. -/
def kpRx : Rx :=
  seqL [litS "[", wsRx, litCI "KP", wsRx, .group 1 (.plusCls pyDigit), wsRx, litS "]"]

/-- `折扣\s*([\d,，]+)` — the discount amount. -/
def discRx : Rx := seqL [litS "折扣", wsRx, .group 1 (.plusCls numSep)]

/-- `\)\s*\*\s*([0-9]+(?:\.[0-9]+)?)` — the price markup factor after the
first closing parenthesis. -/
def priceFactorRx : Rx :=
  seqL [litS ")", wsRx, litS "*", wsRx, .group 1 decimalRx]

/-- `TAX\s*([\d,，]+)\s*\*\s*([0-9]+(?:\.[0-9]+)?)` (ignore-case). -/
def taxRx : Rx :=
  seqL [litCI "TAX", wsRx, .group 1 (.plusCls numSep), wsRx, litS "*", wsRx,
    .group 2 decimalRx]

/-- `固定金額\s*([-]?[\d,，]+)` — the fixed adjustment (may be negative). -/
def fixedRx : Rx :=
  seqL [litS "固定金額", wsRx, .group 1 (.seq (.opt (litS "-")) (.plusCls numSep))]

/-- `=\s*([\d,，]+)\s*$` — the total, right of the final equals sign. -/
def totalRx : Rx := seqL [litS "=", wsRx, .group 1 (.plusCls numSep), wsRx, .eos]

/-- `稅金\s*([\d,，]+)` — the standalone tax label of the fallback pass. -/
def taxFallbackRx : Rx := seqL [litS "稅金", wsRx, .group 1 (.plusCls numSep)]

/-- `總售價[:：]\s*([\d,，]+)` — the standalone total label of the fallback
pass. -/
def totalFallbackRx : Rx :=
  seqL [litS "總售價", .cls (fun c => c = ':' || c = '：'), wsRx,
    .group 1 (.plusCls numSep)]

/-- The formula line: the text after the `大人公式` label, stripped
(`formula_line` of the source; `[]` when the label is absent). -/
def extractFormulaLine (modalText : List Char) : List Char :=
  match reSearch formulaRx modalText with
  | some g => pyStrip (grpD g 1)
  | none => []

/-- Shape classification and positional field extraction from a (non-empty)
formula line: the body of the `if formula_line:` block.  Returns the updated
record together with the anomaly signal (`breakpoint()` on an unrecognized
shape). -/
def classifyShape (line : List Char) : Int × Bool :=
  if (reMatchTop type1Rx line).isSome then (1, false)
  else if (reMatchTop type2Rx line).isSome then (2, false)
  else (-1, true)

def decodeFormula (r : PriceRecord) (line : List Char) : PriceRecord × Bool :=
  let shape := (classifyShape line).1
  let anomaly := (classifyShape line).2
  let r := { r with «公式類型» := shape }
  let r :=
    match reSearch typePriceRx1 line with
    | some g => { r with «票型» := String.mk (pyStrip (grpD g 1)),
                         «基礎票價» := parse_int (grpD g 2) }
    | none =>
      match reSearch typePriceRx2 line with
      | some g => { r with «票型» := String.mk (pyStrip (grpD g 1)),
                           «基礎票價» := parse_int (grpD g 2) }
      | none => r
  let r :=
    match reSearch kpRx line with
    | some g => { r with «折讓百分比» := (digitsToNat (grpD g 1) : Int) }
    | none => r
  let r :=
    match reSearch discRx line with
    | some g => { r with «折扣» := parse_int (grpD g 1) }
    | none => r
  let r :=
    match reSearch priceFactorRx line with
    | some g => { r with «票價加價成數» := parse_float (grpD g 1) }
    | none => r
  let r :=
    match reSearch taxRx line with
    | some g => { r with «稅金» := parse_int (grpD g 1),
                         «稅金加價成數» := parse_float (grpD g 2) }
    | none => r
  let r :=
    match reSearch fixedRx line with
    | some g => { r with «固定金額» := parse_int (grpD g 1) }
    | none => r
  let r :=
    match reSearch totalRx line with
    | some g => { r with «總售價» := parse_int (grpD g 1) }
    | none => r
  (r, anomaly)

/-- The GDS-type stage: the record after the `GDS Type` search. -/
def gdsStage (modalText : List Char) : PriceRecord :=
  match reSearch gdsRx modalText with
  | some g => { initPriceRecord with gdsType := String.mk (pyStrip (grpD g 1)) }
  | none => initPriceRecord

/-- The primary pass on the dialog text: GDS type, then (when a formula line
is present) shape classification and positional extraction. -/
def pricePrimaryPass (modalText : List Char) : PriceRecord × Bool :=
  let line := extractFormulaLine modalText
  if line ≠ [] then decodeFormula (gdsStage modalText) line
  else (gdsStage modalText, false)

/-- Value delivered by the standalone-tax fallback search over the whole
dialog text (`0` when the label is absent — the field keeps its default). -/
def taxFallbackValue (modalText : List Char) : Int :=
  match reSearch taxFallbackRx modalText with
  | some g => parse_int (grpD g 1)
  | none => 0

/-- Value delivered by the standalone-total fallback search. -/
def totalFallbackValue (modalText : List Char) : Int :=
  match reSearch totalFallbackRx modalText with
  | some g => parse_int (grpD g 1)
  | none => 0

/-- The fallback pass: re-fill tax / total from the whole dialog text when
they are still zero (`if not record["稅金"]` / `if not record["總售價"]`). -/
def priceFallbackPass (r : PriceRecord) (modalText : List Char) : PriceRecord :=
  let r :=
    if r.«稅金» = 0 then
      match reSearch taxFallbackRx modalText with
      | some g => { r with «稅金» := parse_int (grpD g 1) }
      | none => r
    else r
  if r.«總售價» = 0 then
    match reSearch totalFallbackRx modalText with
    | some g => { r with «總售價» := parse_int (grpD g 1) }
    | none => r
  else r

/-- `extract_and_clean_price_data`: `none` models every path on which no
dialog text is obtained (missing driver / timeout / missing element), each
of which returns the default record; `some text` is the dialog's text.  The
second component is the anomaly signal (`breakpoint()` reached). -/
def extract_and_clean_price_data (modalText : Option String) : PriceRecord × Bool :=
  match modalText with
  | none => (initPriceRecord, false)
  | some mt =>
    let (r, anomaly) := pricePrimaryPass mt.data
    (priceFallbackPass r mt.data, anomaly)

/-! ## Date/time normalizers (`DateTimeParser`) -/

/-- A parsed `datetime` value (the fields `parse_date_time` produces; seconds
are always zero). -/
structure PyDateTime where
  year : Nat
  month : Nat
  day : Nat
  hour : Nat
  minute : Nat
  deriving DecidableEq, Repr

/-- Leap-year rule of the Gregorian calendar, as used by `datetime`. -/
def isLeapYear (y : Nat) : Bool :=
  y % 4 = 0 && (y % 100 ≠ 0 || y % 400 = 0)

/-- Days in a month, as enforced by the `datetime` constructor. -/
def daysInMonth (y m : Nat) : Nat :=
  if m = 2 then (if isLeapYear y then 29 else 28)
  else if m = 4 || m = 6 || m = 9 || m = 11 then 30
  else 31

/-- `re.sub(r"\([^)]*\)", "", text)`: delete every parenthesized group (a
`(`, any characters other than `)`, then a `)`), scanning left to right; a
`(` with no later `)` is kept. -/
def removeParensAux : Nat → List Char → List Char
  | 0, _ => []
  | _ + 1, [] => []
  | fuel + 1, c :: rest =>
    if c = '(' ∧ ')' ∈ rest then removeParensAux fuel (rest.drop (rest.indexOf ')' + 1))
    else c :: removeParensAux fuel rest

def removeParens (s : List Char) : List Char := removeParensAux (s.length + 1) s

/-- CPython's `_strptime` pattern for the format `"%Y/%m/%d %H:%M"`:
`(\d\d\d\d)/(1[0-2]|0[1-9]|[1-9])/(3[0-1]|[1-2]\d|0[1-9]|[1-9]| [1-9])\s+(2[0-3]|[0-1]\d|\d):([0-5]\d|\d)`
(a whitespace run in the format becomes `\s+`; matching is anchored at the
start and any unconverted trailing data is an error, handled at the caller). -/
def inRange (lo hi : Char) : Char → Bool := fun c => lo ≤ c && c ≤ hi

def monthAltRx : Rx :=
  .alt (.seq (.lits ['1']) (.cls (inRange '0' '2')))
    (.alt (.seq (.lits ['0']) (.cls (inRange '1' '9'))) (.cls (inRange '1' '9')))

def dayAltRx : Rx :=
  .alt (.seq (.lits ['3']) (.cls (inRange '0' '1')))
    (.alt (.seq (.cls (inRange '1' '2')) (.cls pyDigit))
      (.alt (.seq (.lits ['0']) (.cls (inRange '1' '9')))
        (.alt (.cls (inRange '1' '9')) (.seq (.lits [' ']) (.cls (inRange '1' '9'))))))

def hourAltRx : Rx :=
  .alt (.seq (.lits ['2']) (.cls (inRange '0' '3')))
    (.alt (.seq (.cls (inRange '0' '1')) (.cls pyDigit)) (.cls pyDigit))

def minuteAltRx : Rx :=
  .alt (.seq (.cls (inRange '0' '5')) (.cls pyDigit)) (.cls pyDigit)

def strptimeRx : Rx :=
  seqL [.group 1 (seqL [.cls pyDigit, .cls pyDigit, .cls pyDigit, .cls pyDigit]),
    .lits ['/'], .group 2 monthAltRx, .lits ['/'], .group 3 dayAltRx,
    .plusCls pySpace, .group 4 hourAltRx, .lits [':'], .group 5 minuteAltRx]

/-- `datetime.strptime(s, "%Y/%m/%d %H:%M")`: match the generated pattern at
the start, reject unconverted trailing data, convert the groups with `int()`
(a group may carry a leading blank from the `%d` pattern, which `int()`
strips), and apply the `datetime` constructor's validity checks. -/
def pyStrptime (s : List Char) : Option PyDateTime :=
  match reMatchRem strptimeRx s with
  | none => none
  | some (rem, g) =>
    if rem ≠ [] then none
    else
      let y := digitsToNat (pyStrip (grpD g 1))
      let mo := digitsToNat (pyStrip (grpD g 2))
      let d := digitsToNat (pyStrip (grpD g 3))
      let h := digitsToNat (pyStrip (grpD g 4))
      let mi := digitsToNat (pyStrip (grpD g 5))
      if 1 ≤ y ∧ y ≤ 9999 ∧ 1 ≤ mo ∧ mo ≤ 12 ∧ 1 ≤ d ∧ d ≤ daysInMonth y mo
          ∧ h ≤ 23 ∧ mi ≤ 59 then
        some { year := y, month := mo, day := d, hour := h, minute := mi }
      else none

/-- `parse_date_time(text, year)`: reject `None`; remove any parenthesized
weekday annotation and strip; parse `f"{year}/" + cleaned` with
`strptime("%Y/%m/%d %H:%M")`.  `Except.error ()` models the raised
`ValueError`. -/
def parse_date_time (text : Option String) (year : Nat) : Except Unit PyDateTime :=
  match text with
  | none => .error ()
  | some t =>
    let cleaned := pyStrip (removeParens t.data)
    match pyStrptime (natDigitsRepr year ++ '/' :: cleaned) with
    | some dt => .ok dt
    | none => .error ()

/-- `format_timedelta_to_hhmm(td)`.  A `timedelta` is modelled by its exact
microsecond count (`none` models an invalid input such as `None`, on which
the source's `except` returns `""`).  `td.total_seconds() // 60` is floor
division, modelled exactly on rationals (binary rounding of
`total_seconds()` is not modelled); `f"{n:02d}"` zero-pads to width 2. -/
def pad02 (n : Nat) : String :=
  if n < 10 then String.mk ('0' :: natDigitsRepr n) else natStr n

def format_timedelta_to_hhmm (td : Option Int) : String :=
  match td with
  | none => ""
  | some micros =>
    let totalMinutes : Int := Int.fdiv micros 60000000
    if totalMinutes ≤ 0 then ""
    else
      let hours := totalMinutes.toNat / 60
      let minutes := totalMinutes.toNat % 60
      pad02 hours ++ ":" ++ pad02 minutes

/-! ## Flight/cabin text normalizer (`parse_flight_and_cabin`) -/

/-- Tier 1 (`re.match`): `\s*([A-Z0-9]{2,3})\s?(\d+)\s+(\S*?)\s*([A-Z])\s*$`. -/
def flightTier1Rx : Rx :=
  seqL [wsRx, .group 1 (.repCls upperAZ09 2 1), .opt (.cls pySpace),
    .group 2 (.plusCls pyDigit), .plusCls pySpace,
    .group 3 (.lazyStarCls (fun c => !pySpace c)), wsRx,
    .group 4 (.cls upperAZ), wsRx, .eos]

/-- Tier 2a (`re.search`): `([A-Z0-9]{2,3})\s?(\d+)` — the flight number. -/
def flightTier2aRx : Rx :=
  seqL [.group 1 (.repCls upperAZ09 2 1), .opt (.cls pySpace),
    .group 2 (.plusCls pyDigit)]

/-- Tier 2b (`re.search`): `([一-龥A-Za-z]+)\s*([A-Z])\s*$` — the trailing
cabin text and booking letter. -/
def flightTier2bRx : Rx :=
  seqL [.group 1 (.plusCls cjkOrLatin), wsRx, .group 4 (.cls upperAZ), wsRx, .eos]

/-- `parse_flight_and_cabin(text)`: strict pattern, then relaxed flight
number + trailing cabin search, then whitespace split; never fails. -/
def parse_flight_and_cabin (text : String) : String × String :=
  if text.data = [] then ("", "")
  else
    match reMatchTop flightTier1Rx text.data with
    | some g =>
      (String.mk (grpD g 1 ++ grpD g 2), String.mk (grpD g 3 ++ grpD g 4))
    | none =>
      match reSearch flightTier2aRx text.data with
      | some g2 =>
        let flightNo := String.mk (grpD g2 1 ++ grpD g2 2)
        match reSearch flightTier2bRx text.data with
        | some g3 => (flightNo, String.mk (grpD g3 1 ++ grpD g3 4))
        | none => (flightNo, "")
      | none =>
        match splitWS text.data with
        | p0 :: p1 :: p2 :: _ => (String.mk p0, String.mk (p1 ++ p2))
        | _ => (String.mk (pyStrip text.data), "")

/-! ## Association-list dictionaries

Python `dict`s are modelled as insertion-ordered association lists:
assignment updates an existing key in place or appends a new one;
`d.get(k)` is an `Option`-valued lookup (`none` for a missing key, matching
Python's `None`). -/

def alGet {α : Type} (m : List (String × α)) (k : String) : Option α :=
  match m with
  | [] => none
  | (k', v) :: t => if k' = k then some v else alGet t k

def alSet {α : Type} (m : List (String × α)) (k : String) (v : α) : List (String × α) :=
  match m with
  | [] => [(k, v)]
  | (k', v') :: t => if k' = k then (k', v) :: t else (k', v') :: alSet t k v

/-! ## Direction classifier and flight-record assembler
(`extract_and_clean_flight_data`)

The Selenium inputs are modelled by the text they deliver: a journey block
(outer `flightDetails_table`) carries its `class` attribute and the
`(class, text)` pairs of its title paragraphs; a candidate segment row is
modelled by the eight already-normalized strings the row loop writes (the
per-cell extraction delegates to the text normalizers embedded above, and
operates on DOM state outside the assembler logic the claims concern). -/

/-- Substring test (`x in s` on Python strings, XPath `contains`). -/
def strContains (s pat : String) : Bool := decide (List.IsInfix pat.data s.data)

/-- A journey block: its `class` attribute and its title paragraphs as
`(class attribute, text content)` pairs. -/
structure JourneyBlock where
  cssClass : String
  titleParas : List (String × String)
  deriving DecidableEq, Repr

/-- The XPath probe for an inbound title: a `p` whose class contains
`detail_title` (or `desktop_detail_title`) and whose text contains `回程`. -/
def hasReturnTitle (b : JourneyBlock) : Bool :=
  b.titleParas.any fun p =>
    (strContains p.1 "detail_title" && strContains p.2 "回程") ||
    (strContains p.1 "desktop_detail_title" && strContains p.2 "回程")

/-- The direction classifier: inbound title, else `return_line` in the
block's class, else positional fallback (index 1 is inbound). -/
def determine_flight_direction (b : JourneyBlock) (tableIndex : Nat) : String :=
  if hasReturnTitle b || strContains b.cssClass "return_line" then "回程"
  else if tableIndex = 1 then "回程" else "去程"

/-- One extracted segment row: the eight normalized strings written into the
record (flight number, cabin+booking code, airports, formatted times,
equipment, formatted duration). -/
structure SegmentData where
  flight_no : String
  cabin_and_code : String
  dep_airport : String
  arr_airport : String
  dep_time : String
  arr_time : String
  equipment : String
  duration : String
  deriving DecidableEq, Repr

/-- The eight field-name stems, in the source's write order. -/
def segmentFieldNames : List String :=
  ["航班編號", "艙等與艙等編碼", "起飛機場", "降落機場",
   "起飛時間", "降落時間", "飛機公司及型號", "飛行時間"]

/-- The record initialization loop: for each direction and slot 1–3, the
eight keys `f"{direction}{field}{i}"`, all set to the empty string. -/
def initFlightRecord : List (String × String) :=
  (["去程", "回程"].flatMap fun d =>
    ([1, 2, 3] : List Nat).flatMap fun i =>
      segmentFieldNames.map fun f => (d ++ f ++ natStr i, ""))

/-- Write one segment's eight fields at `f"{direction}{field}{idx}"`. -/
def writeSegment (record : List (String × String)) (direction : String)
    (idx : Nat) (seg : SegmentData) : List (String × String) :=
  let record := alSet record (direction ++ "航班編號" ++ natStr idx) seg.flight_no
  let record := alSet record (direction ++ "艙等與艙等編碼" ++ natStr idx) seg.cabin_and_code
  let record := alSet record (direction ++ "起飛機場" ++ natStr idx) seg.dep_airport
  let record := alSet record (direction ++ "降落機場" ++ natStr idx) seg.arr_airport
  let record := alSet record (direction ++ "起飛時間" ++ natStr idx) seg.dep_time
  let record := alSet record (direction ++ "降落時間" ++ natStr idx) seg.arr_time
  let record := alSet record (direction ++ "飛機公司及型號" ++ natStr idx) seg.equipment
  alSet record (direction ++ "飛行時間" ++ natStr idx) seg.duration

/-- The per-row step of the assembler loop: skip when the direction's
segment index already exceeds 3, otherwise write the row at the current
index and increment it. -/
def assembleRow (direction : String)
    (st : List (String × String) × List (String × Nat)) (seg : SegmentData) :
    List (String × String) × List (String × Nat) :=
  let idx := (alGet st.2 direction).getD 0
  if idx > 3 then st
  else (writeSegment st.1 direction idx seg, alSet st.2 direction (idx + 1))

/-- The assembler core: initialize the 48-key record and the per-direction
segment counters, then process each journey block (direction from the
classifier, rows in order).  Returns the record together with the final
counters. -/
def assembleFlightRecord (blocks : List (JourneyBlock × List SegmentData)) :
    List (String × String) × List (String × Nat) :=
  let init : List (String × String) × List (String × Nat) :=
    (initFlightRecord, [("去程", 1), ("回程", 1)])
  (blocks.enum.foldl (fun st bi =>
    let direction := determine_flight_direction bi.2.1 bi.1
    bi.2.2.foldl (assembleRow direction) st) init)

/-- `extract_and_clean_flight_data`: the one-record list the source
returns. -/
def extract_and_clean_flight_data (blocks : List (JourneyBlock × List SegmentData)) :
    List (List (String × String)) :=
  [(assembleFlightRecord blocks).1]

/-! ## Baggage reconciler (`extract_and_clean_baggage_data`) -/

/-- A baggage row, modelled by the three cell texts the loop reads. -/
structure BaggageRow where
  segment_text : String
  flight_num_text : String
  adult_baggage_text : String
  deriving DecidableEq, Repr

/-- `(\d+)\s*(公斤|件)?` — the weight-or-piece amount and unit. -/
def bagAmountRx : Rx :=
  seqL [.group 1 (.plusCls pyDigit), wsRx,
    .opt (.group 2 (.alt (litS "公斤") (litS "件")))]

/-- `(\w+)\s+.*?－\s*(\w+)` — the departure/arrival airport pair of the
row's segment description. -/
def bagAirportRx : Rx :=
  seqL [.group 1 (.plusCls pyWord), .plusCls pySpace,
    .lazyStarCls (fun c => c ≠ '\n'), litS "－", wsRx, .group 2 (.plusCls pyWord)]

/-- The formatted amount `f"{value}{unit}"` (`None` when the amount pattern
finds no number). -/
def bagCleanedInfo (row : BaggageRow) : Option String :=
  match reSearch bagAmountRx row.adult_baggage_text.data with
  | some g =>
    some (natStr (digitsToNat (grpD g 1)) ++ String.mk ((grp g 2).getD []))
  | none => none

/-- The parsed `(dep, arr)` airport codes (`none` components when the
airport pattern fails). -/
def bagAirports (row : BaggageRow) : Option String × Option String :=
  match reSearch bagAirportRx row.segment_text.data with
  | some g => (some (String.mk (grpD g 1)), some (String.mk (grpD g 2)))
  | none => (none, none)

/-- Does slot `i` of the outbound direction match the pair?  Python compares
`details.get(key) == code` where either side may be `None`. -/
def outSlotMatch (details : List (String × String)) (i : Nat)
    (dep arr : Option String) : Bool :=
  alGet details ("去程起飛機場" ++ natStr i) = dep &&
  alGet details ("去程降落機場" ++ natStr i) = arr

/-- Does slot `i` of the inbound direction match the pair? -/
def retSlotMatch (details : List (String × String)) (i : Nat)
    (dep arr : Option String) : Bool :=
  alGet details ("回程起飛機場" ++ natStr i) = dep &&
  alGet details ("回程降落機場" ++ natStr i) = arr

/-- The direction-resolution loop: for `i = 1, 2, 3`, check the outbound
slot then the inbound slot, first match wins; `none` when no slot of either
direction matches. -/
def journeyType (details : List (String × String))
    (dep arr : Option String) : Option String :=
  if outSlotMatch details 1 dep arr then some "去程"
  else if retSlotMatch details 1 dep arr then some "回程"
  else if outSlotMatch details 2 dep arr then some "去程"
  else if retSlotMatch details 2 dep arr then some "回程"
  else if outSlotMatch details 3 dep arr then some "去程"
  else if retSlotMatch details 3 dep arr then some "回程"
  else none

/-- The reconciler's running state: the baggage dict (values may be Python
`None`), the two direction counters, and the count of rows that reached the
`breakpoint()` operator-attention path. -/
structure BagState where
  info : List (String × Option String)
  outboundCounter : Nat
  returnCounter : Nat
  anomalies : Nat
  deriving DecidableEq, Repr

/-- The per-row body of the baggage loop. -/
def processBagRow (details : List (String × String)) (st : BagState)
    (row : BaggageRow) : BagState :=
  let cleaned := bagCleanedInfo row
  let (dep, arr) := bagAirports row
  match journeyType details dep arr with
  | some "去程" =>
    { st with info := alSet st.info ("去程行李" ++ natStr (st.outboundCounter + 1)) cleaned,
              outboundCounter := st.outboundCounter + 1 }
  | some "回程" =>
    { st with info := alSet st.info ("回程行李" ++ natStr (st.returnCounter + 1)) cleaned,
              returnCounter := st.returnCounter + 1 }
  | _ => { st with anomalies := st.anomalies + 1 }

/-- `extract_and_clean_baggage_data`: fold the rows from empty dict and zero
counters. -/
def extract_and_clean_baggage_data (rows : List BaggageRow)
    (details : List (String × String)) : BagState :=
  rows.foldl (processBagRow details) ⟨[], 0, 0, 0⟩

/-! ## Statement-side helpers for the claims -/

/-- The 48 record keys of a `FlightRecord`, written out (2 directions × 3
segment slots × 8 fields, in the initialization loop's order). -/
def flightRecordKeys : List String :=
  [   "去程航班編號1", "去程艙等與艙等編碼1", "去程起飛機場1", "去程降落機場1", "去程起飛時間1", "去程降落時間1", "去程飛機公司及型號1", "去程飛行時間1",
   "去程航班編號2", "去程艙等與艙等編碼2", "去程起飛機場2", "去程降落機場2", "去程起飛時間2", "去程降落時間2", "去程飛機公司及型號2", "去程飛行時間2",
   "去程航班編號3", "去程艙等與艙等編碼3", "去程起飛機場3", "去程降落機場3", "去程起飛時間3", "去程降落時間3", "去程飛機公司及型號3", "去程飛行時間3",
   "回程航班編號1", "回程艙等與艙等編碼1", "回程起飛機場1", "回程降落機場1", "回程起飛時間1", "回程降落時間1", "回程飛機公司及型號1", "回程飛行時間1",
   "回程航班編號2", "回程艙等與艙等編碼2", "回程起飛機場2", "回程降落機場2", "回程起飛時間2", "回程降落時間2", "回程飛機公司及型號2", "回程飛行時間2",
   "回程航班編號3", "回程艙等與艙等編碼3", "回程起飛機場3", "回程降落機場3", "回程起飛時間3", "回程降落時間3", "回程飛機公司及型號3", "回程飛行時間3"]

/-- Two-digit zero-padded decimal text of `n < 100` (the `MM`/`DD`/`HH`/`MM`
components of the site's date-time texts). -/
def pad2 (n : Nat) : List Char := [Nat.digitChar (n / 10), Nat.digitChar (n % 10)]

/-- A date-time text of the form `"MM/DD HH:MM"` with an arbitrary annotation
inserted after the day (`annot = []` for the bare form, `(w)` for the
weekday-annotated form). -/
def mkDateText (mo d h mi : Nat) (annot : List Char) : String :=
  String.mk (pad2 mo ++ '/' :: pad2 d ++ annot ++ ' ' :: pad2 h ++ ':' :: pad2 mi)

/-- A built flight record whose outbound slot 2 and inbound slot 1 carry the
same airport pair (a multi-leg itinerary re-using a leg in both directions). -/
def c8FlightDetails : List (String × String) :=
  alSet (alSet (alSet (alSet initFlightRecord
    "去程起飛機場2" "AAA") "去程降落機場2" "BBB") "回程起飛機場1" "AAA") "回程降落機場1" "BBB"

/-- A baggage row whose segment text parses to the pair `(AAA, BBB)`. -/
def c8BaggageRow : BaggageRow :=
  { segment_text := "AAA 台北 － BBB", flight_num_text := "XX123",
    adult_baggage_text := "20公斤" }

/-! ## Theorems -/

set_option maxRecDepth 8000

theorem decodeFormula_type (r : PriceRecord) (line : List Char) :
    (decodeFormula r line).1.«公式類型» = (classifyShape line).1 := by
  unfold decodeFormula
  repeat' split
  all_goals rfl

theorem decodeFormula_anomaly (r : PriceRecord) (line : List Char) :
    (decodeFormula r line).2 = (classifyShape line).2 := by
  unfold decodeFormula
  repeat' split
  all_goals rfl

theorem priceFallbackPass_type (r : PriceRecord) (mt : List Char) :
    (priceFallbackPass r mt).«公式類型» = r.«公式類型» := by
  unfold priceFallbackPass
  repeat' (first | rfl | split | dsimp only)

theorem priceFallbackPass_tax (r : PriceRecord) (mt : List Char) :
    (priceFallbackPass r mt).«稅金» =
      (if r.«稅金» = 0 then taxFallbackValue mt else r.«稅金») := by
  unfold priceFallbackPass taxFallbackValue
  repeat' (first | rfl | assumption | split | dsimp only)
  all_goals simp_all

theorem priceFallbackPass_total (r : PriceRecord) (mt : List Char) :
    (priceFallbackPass r mt).«總售價» =
      (if r.«總售價» = 0 then totalFallbackValue mt else r.«總售價») := by
  unfold priceFallbackPass totalFallbackValue
  repeat' (first | rfl | assumption | split | dsimp only)
  all_goals simp_all

theorem extract_price_eq (mt : String) :
    extract_and_clean_price_data (some mt) =
      (priceFallbackPass (pricePrimaryPass mt.data).1 mt.data,
       (pricePrimaryPass mt.data).2) := rfl

/-- C1: the dialog formula line "( 票面 4,468 * [KP3] - 折扣 0 ) * 1.021 + TAX
3,840 * 1.021 + 固定金額 0 = 8,346" is classified as Shape 1 (公式類型 = 1), with
fare-basis 票面, base fare 4468, discount code 3, discount amount 0, price
markup 1.021, tax 3840, tax markup 1.021, fixed adjustment 0 and total 8346,
and no anomaly is raised. -/
theorem claim_C1 :
    extract_and_clean_price_data
      (some "大人公式: ( 票面 4,468 * [KP3] - 折扣 0 ) * 1.021 + TAX 3,840 * 1.021 + 固定金額 0 = 8,346") =
    ({ gdsType := "", «稅金» := 3840, «總售價» := 8346, «票型» := "票面",
       «基礎票價» := 4468, «折讓百分比» := 3, «折扣» := 0,
       «票價加價成數» := mkRat 1021 1000, «稅金加價成數» := mkRat 1021 1000,
       «固定金額» := 0, «公式類型» := 1 }, false) := by decide

/-- C2: a dialog whose formula line matches neither canonical shape gets
公式類型 = -1 and raises the operator-attention signal (the breakpoint flag is
true); it is never silently classified as Shape 1 or Shape 2. -/
theorem claim_C2 (mt : String)
    (hline : extractFormulaLine mt.data ≠ [])
    (h1 : reMatchTop type1Rx (extractFormulaLine mt.data) = none)
    (h2 : reMatchTop type2Rx (extractFormulaLine mt.data) = none) :
    (extract_and_clean_price_data (some mt)).1.«公式類型» = -1 ∧
    (extract_and_clean_price_data (some mt)).2 = true := by
  rw [extract_price_eq]
  have hp : pricePrimaryPass mt.data =
      decodeFormula (gdsStage mt.data) (extractFormulaLine mt.data) := by
    unfold pricePrimaryPass
    simp only [hline, ne_eq, not_false_iff, if_true, ite_not, if_neg]
  refine ⟨?_, ?_⟩
  · show (priceFallbackPass (pricePrimaryPass mt.data).1 mt.data).«公式類型» = -1
    rw [priceFallbackPass_type, hp, decodeFormula_type]
    unfold classifyShape
    rw [h1, h2]
    rfl
  · show (pricePrimaryPass mt.data).2 = true
    rw [hp, decodeFormula_anomaly]
    unfold classifyShape
    rw [h1, h2]
    rfl

theorem claim_C2_witness :
    (extract_and_clean_price_data (some "大人公式: F")).1.«公式類型» = -1 ∧
    (extract_and_clean_price_data (some "大人公式: F")).2 = true :=
  claim_C2 "大人公式: F" (by decide) (by decide) (by decide)

/-- C3: the standalone 稅金 and 總售價 fallback searches are applied exactly
when the corresponding field is still 0 after the primary pass; a non-zero
primary value is never overwritten, and when the fallback search also fails the
field keeps its default 0. -/
theorem claim_C3 (mt : String) :
    ((pricePrimaryPass mt.data).1.«稅金» ≠ 0 →
      (extract_and_clean_price_data (some mt)).1.«稅金» =
        (pricePrimaryPass mt.data).1.«稅金») ∧
    ((pricePrimaryPass mt.data).1.«稅金» = 0 →
      (extract_and_clean_price_data (some mt)).1.«稅金» = taxFallbackValue mt.data) ∧
    ((pricePrimaryPass mt.data).1.«稅金» = 0 → reSearch taxFallbackRx mt.data = none →
      (extract_and_clean_price_data (some mt)).1.«稅金» = 0) ∧
    ((pricePrimaryPass mt.data).1.«總售價» ≠ 0 →
      (extract_and_clean_price_data (some mt)).1.«總售價» =
        (pricePrimaryPass mt.data).1.«總售價») ∧
    ((pricePrimaryPass mt.data).1.«總售價» = 0 →
      (extract_and_clean_price_data (some mt)).1.«總售價» = totalFallbackValue mt.data) ∧
    ((pricePrimaryPass mt.data).1.«總售價» = 0 → reSearch totalFallbackRx mt.data = none →
      (extract_and_clean_price_data (some mt)).1.«總售價» = 0) := by
  rw [extract_price_eq]
  refine ⟨?_, ?_, ?_, ?_, ?_, ?_⟩
  · intro h
    show (priceFallbackPass (pricePrimaryPass mt.data).1 mt.data).«稅金» = _
    rw [priceFallbackPass_tax, if_neg h]
  · intro h
    show (priceFallbackPass (pricePrimaryPass mt.data).1 mt.data).«稅金» = _
    rw [priceFallbackPass_tax, if_pos h]
  · intro h hs
    show (priceFallbackPass (pricePrimaryPass mt.data).1 mt.data).«稅金» = _
    rw [priceFallbackPass_tax, if_pos h]
    unfold taxFallbackValue
    rw [hs]
  · intro h
    show (priceFallbackPass (pricePrimaryPass mt.data).1 mt.data).«總售價» = _
    rw [priceFallbackPass_total, if_neg h]
  · intro h
    show (priceFallbackPass (pricePrimaryPass mt.data).1 mt.data).«總售價» = _
    rw [priceFallbackPass_total, if_pos h]
  · intro h hs
    show (priceFallbackPass (pricePrimaryPass mt.data).1 mt.data).«總售價» = _
    rw [priceFallbackPass_total, if_pos h]
    unfold totalFallbackValue
    rw [hs]

theorem claim_C3_witness :
    (extract_and_clean_price_data (some "NEGO 8446 稅金 2,534")).1.«稅金» =
      taxFallbackValue "NEGO 8446 稅金 2,534".data ∧
    (extract_and_clean_price_data
        (some "大人公式: ( 票面 100 * [KP1] - 折扣 0 ) * 1.0 + TAX 50 * 1.0 + 固定金額 0 = 150")).1.«稅金» =
      (pricePrimaryPass
        "大人公式: ( 票面 100 * [KP1] - 折扣 0 ) * 1.0 + TAX 50 * 1.0 + 固定金額 0 = 150".data).1.«稅金» :=
  ⟨(claim_C3 "NEGO 8446 稅金 2,534").2.1 (by decide),
   (claim_C3 "大人公式: ( 票面 100 * [KP1] - 折扣 0 ) * 1.0 + TAX 50 * 1.0 + 固定金額 0 = 150").1
     (by decide)⟩

/-- C7: the direction classifier returns 回程 when the block title text
contains the inbound marker; otherwise 回程 when the CSS class contains
return_line; otherwise 回程 exactly when the position index is 1 and 去程
otherwise — title first, class second, position last. -/
theorem claim_C7 (b : JourneyBlock) (idx : Nat) :
    (hasReturnTitle b = true → determine_flight_direction b idx = "回程") ∧
    (hasReturnTitle b = false → strContains b.cssClass "return_line" = true →
      determine_flight_direction b idx = "回程") ∧
    (hasReturnTitle b = false → strContains b.cssClass "return_line" = false →
      determine_flight_direction b idx = (if idx = 1 then "回程" else "去程")) := by
  refine ⟨?_, ?_, ?_⟩ <;> intro h <;> unfold determine_flight_direction
  · simp [h]
  · intro h2
    simp [h, h2]
  · intro h2
    simp [h, h2]

theorem claim_C7_witness :
    determine_flight_direction { cssClass := "", titleParas := [("detail_title", "回程 X")] } 0 = "回程" ∧
    determine_flight_direction { cssClass := "a return_line b", titleParas := [] } 0 = "回程" ∧
    determine_flight_direction { cssClass := "", titleParas := [] } 0 =
      (if (0 : Nat) = 1 then "回程" else "去程") :=
  ⟨(claim_C7 _ 0).1 (by decide),
   (claim_C7 _ 0).2.1 (by decide) (by decide),
   (claim_C7 _ 0).2.2 (by decide) (by decide)⟩

/-- C10: format_timedelta_to_hhmm returns the empty string for every duration
whose floor of total whole minutes is at most 0 — negative durations and
sub-minute positive ones included — and the zero-padded HH:MM rendering when
the duration has at least one whole minute; it never raises. -/
theorem claim_C10 (micros : Int) :
    format_timedelta_to_hhmm none = "" ∧
    (Int.fdiv micros 60000000 ≤ 0 → format_timedelta_to_hhmm (some micros) = "") ∧
    (1 ≤ Int.fdiv micros 60000000 →
      format_timedelta_to_hhmm (some micros) =
        pad02 ((Int.fdiv micros 60000000).toNat / 60) ++ ":" ++
        pad02 ((Int.fdiv micros 60000000).toNat % 60)) := by
  refine ⟨rfl, ?_, ?_⟩ <;> intro h <;> unfold format_timedelta_to_hhmm <;> dsimp only
  · rw [if_pos h]
  · rw [if_neg (by omega)]

theorem claim_C10_witness :
    format_timedelta_to_hhmm (some (-100)) = "" ∧
    format_timedelta_to_hhmm (some 59000000) = "" ∧
    format_timedelta_to_hhmm (some 12300000000) =
      pad02 ((Int.fdiv 12300000000 60000000).toNat / 60) ++ ":" ++
      pad02 ((Int.fdiv 12300000000 60000000).toNat % 60) :=
  ⟨(claim_C10 (-100)).2.1 (by decide),
   (claim_C10 59000000).2.1 (by decide),
   (claim_C10 12300000000).2.2 (by decide)⟩

set_option maxRecDepth 8000

theorem alGet_alSet_self {α : Type} (m : List (String × α)) (k k' : String) (v : α)
    (h : k = k') : alGet (alSet m k v) k' = some v := by
  subst h
  induction m with
  | nil => simp [alSet, alGet]
  | cons hd tl ih =>
    by_cases h : hd.1 = k
    · simp [alSet, alGet, h]
    · simp [alSet, alGet, h, ih]

theorem alGet_alSet_ne {α : Type} (m : List (String × α)) (k k' : String) (v : α)
    (h : k ≠ k') : alGet (alSet m k v) k' = alGet m k' := by
  induction m with
  | nil => simp [alSet, alGet, h]
  | cons hd tl ih =>
    by_cases h2 : hd.1 = k
    · simp [alSet, alGet, h2, h]
    · simp only [alSet, alGet, h2, if_false]
      by_cases h3 : hd.1 = k' <;> simp [h3, ih]

theorem map_fst_alSet_of_mem {α : Type} (m : List (String × α)) (k : String) (v : α)
    (h : k ∈ m.map Prod.fst) : (alSet m k v).map Prod.fst = m.map Prod.fst := by
  induction m with
  | nil => simp at h
  | cons hd tl ih =>
    by_cases h2 : hd.1 = k
    · simp [alSet, h2]
    · simp only [List.map_cons, List.mem_cons] at h
      rcases h with h | h
    
      · exact absurd h.symm h2
      · simp [alSet, h2, ih h]

theorem writeSegment_map_fst (m : List (String × String)) (d : String) (i : Nat)
    (seg : SegmentData)
    (h : ∀ f ∈ segmentFieldNames, (d ++ f ++ natStr i) ∈ m.map Prod.fst) :
    (writeSegment m d i seg).map Prod.fst = m.map Prod.fst := by
  have h1 := h "航班編號" (by simp [segmentFieldNames])
  have h2 := h "艙等與艙等編碼" (by simp [segmentFieldNames])
  have h3 := h "起飛機場" (by simp [segmentFieldNames])
  have h4 := h "降落機場" (by simp [segmentFieldNames])
  have h5 := h "起飛時間" (by simp [segmentFieldNames])
  have h6 := h "降落時間" (by simp [segmentFieldNames])
  have h7 := h "飛機公司及型號" (by simp [segmentFieldNames])
  have h8 := h "飛行時間" (by simp [segmentFieldNames])
  have step : ∀ (m2 : List (String × String)) (k v : String),
      m2.map Prod.fst = m.map Prod.fst → k ∈ m.map Prod.fst →
      (alSet m2 k v).map Prod.fst = m.map Prod.fst := by
    intro m2 k v he hk
    rw [map_fst_alSet_of_mem _ _ _ (by rw [he]; exact hk), he]
  unfold writeSegment
  exact step _ _ _ (step _ _ _ (step _ _ _ (step _ _ _ (step _ _ _ (step _ _ _
    (step _ _ _ (step _ _ _ rfl h1) h2) h3) h4) h5) h6) h7) h8

theorem assembleRow_skip (d : String) (st : List (String × String) × List (String × Nat))
    (seg : SegmentData) (h : (alGet st.2 d).getD 0 > 3) : assembleRow d st seg = st := by
  unfold assembleRow
  rw [if_pos h]

theorem assembleRow_write (d : String) (st : List (String × String) × List (String × Nat))
    (seg : SegmentData) (i : Nat) (hi : (alGet st.2 d).getD 0 = i) (h : ¬i > 3) :
    assembleRow d st seg = (writeSegment st.1 d i seg, alSet st.2 d (i + 1)) := by
  unfold assembleRow
  rw [hi, if_neg h]

/-- C6: the assembled flight record always carries exactly the 48 fixed keys,
all initialized to the empty string; a direction segment index starts at 1,
increments once per processed row and never exceeds 3: with 5 candidate rows in
one direction the 4th and 5th are ignored without error and the record equals
the one built from the first three rows. -/
theorem claim_C6 :
    (initFlightRecord.map Prod.fst = flightRecordKeys ∧
     initFlightRecord.map Prod.snd = List.replicate 48 "") ∧
    (∀ (b : JourneyBlock) (r1 r2 r3 r4 r5 : SegmentData),
      determine_flight_direction b 0 = "去程" →
      (assembleFlightRecord [(b, [r1, r2, r3, r4, r5])] =
         assembleFlightRecord [(b, [r1, r2, r3])] ∧
       (assembleFlightRecord [(b, [r1, r2, r3, r4, r5])]).2 = [("去程", 4), ("回程", 1)] ∧
       (assembleFlightRecord [(b, [r1])]).2 = [("去程", 2), ("回程", 1)] ∧
       (assembleFlightRecord [(b, [r1, r2, r3, r4, r5])]).1.map Prod.fst = flightRecordKeys ∧
       alGet (assembleFlightRecord [(b, [r1, r2, r3, r4, r5])]).1 "去程航班編號1" = some r1.flight_no ∧
       alGet (assembleFlightRecord [(b, [r1, r2, r3, r4, r5])]).1 "去程航班編號2" = some r2.flight_no ∧
       alGet (assembleFlightRecord [(b, [r1, r2, r3, r4, r5])]).1 "去程航班編號3" = some r3.flight_no ∧
       alGet (assembleFlightRecord [(b, [r1, r2, r3, r4, r5])]).1 "去程起飛機場2" = some r2.dep_airport ∧
       alGet (assembleFlightRecord [(b, [r1, r2, r3, r4, r5])]).1 "去程飛行時間3" = some r3.duration)) := by
  refine ⟨⟨by decide, by decide⟩, ?_⟩
  intro b r1 r2 r3 r4 r5 hdir
  have hass : ∀ rows : List SegmentData,
      assembleFlightRecord [(b, rows)] =
        rows.foldl (assembleRow "去程") (initFlightRecord, [("去程", 1), ("回程", 1)]) := by
    intro rows
    unfold assembleFlightRecord
    simp only [List.enum, List.enumFrom, List.foldl_cons, List.foldl_nil, hdir]
  have h1 : assembleRow "去程" (initFlightRecord, [("去程", 1), ("回程", 1)]) r1 =
      (writeSegment initFlightRecord "去程" 1 r1, [("去程", 2), ("回程", 1)]) := by
    unfold assembleRow
    simp [alGet, alSet]
  have h2 : assembleRow "去程" (writeSegment initFlightRecord "去程" 1 r1,
      [("去程", 2), ("回程", 1)]) r2 =
      (writeSegment (writeSegment initFlightRecord "去程" 1 r1) "去程" 2 r2,
       [("去程", 3), ("回程", 1)]) := by
    unfold assembleRow
    simp [alGet, alSet]
  have h3 : assembleRow "去程" (writeSegment (writeSegment initFlightRecord "去程" 1 r1)
      "去程" 2 r2, [("去程", 3), ("回程", 1)]) r3 =
      (writeSegment (writeSegment (writeSegment initFlightRecord "去程" 1 r1) "去程" 2 r2)
        "去程" 3 r3, [("去程", 4), ("回程", 1)]) := by
    unfold assembleRow
    simp [alGet, alSet]
  have h4 : ∀ seg : SegmentData, assembleRow "去程"
      (writeSegment (writeSegment (writeSegment initFlightRecord "去程" 1 r1) "去程" 2 r2)
        "去程" 3 r3, [("去程", 4), ("回程", 1)]) seg =
      (writeSegment (writeSegment (writeSegment initFlightRecord "去程" 1 r1) "去程" 2 r2)
        "去程" 3 r3, [("去程", 4), ("回程", 1)]) := by
    intro seg
    unfold assembleRow
    simp [alGet]
  have e5 : assembleFlightRecord [(b, [r1, r2, r3, r4, r5])] =
      (writeSegment (writeSegment (writeSegment initFlightRecord "去程" 1 r1) "去程" 2 r2)
        "去程" 3 r3, [("去程", 4), ("回程", 1)]) := by
    rw [hass]
    simp only [List.foldl_cons, List.foldl_nil, h1, h2, h3, h4]
  have e3 : assembleFlightRecord [(b, [r1, r2, r3])] =
      (writeSegment (writeSegment (writeSegment initFlightRecord "去程" 1 r1) "去程" 2 r2)
        "去程" 3 r3, [("去程", 4), ("回程", 1)]) := by
    rw [hass]
    simp only [List.foldl_cons, List.foldl_nil, h1, h2, h3]
  have e1 : assembleFlightRecord [(b, [r1])] =
      (writeSegment initFlightRecord "去程" 1 r1, [("去程", 2), ("回程", 1)]) := by
    rw [hass]
    simp only [List.foldl_cons, List.foldl_nil, h1]
  have k1 : (writeSegment initFlightRecord "去程" 1 r1).map Prod.fst =
      initFlightRecord.map Prod.fst :=
    writeSegment_map_fst _ _ _ _ (by decide)
  have k2 : (writeSegment (writeSegment initFlightRecord "去程" 1 r1) "去程" 2 r2).map
      Prod.fst = initFlightRecord.map Prod.fst := by
    rw [writeSegment_map_fst, k1]
    intro f hf
    rw [k1]
    revert f
    decide
  have k3 : (writeSegment (writeSegment (writeSegment initFlightRecord "去程" 1 r1)
      "去程" 2 r2) "去程" 3 r3).map Prod.fst = initFlightRecord.map Prod.fst := by
    rw [writeSegment_map_fst, k2]
    intro f hf
    rw [k2]
    revert f
    decide
  rw [e5, e3, e1]
  refine ⟨rfl, rfl, rfl, ?_, ?_, ?_, ?_, ?_, ?_⟩
  · dsimp only
    rw [k3]
    decide
  all_goals
    dsimp only
    unfold writeSegment
    repeat rw [alGet_alSet_ne _ _ _ _ (by decide)]
    rw [alGet_alSet_self _ _ _ _ (by decide)]

theorem claim_C6_witness :
    assembleFlightRecord [(⟨"", []⟩, [⟨"F1", "c1", "a", "b", "t", "u", "e", "d"⟩,
        ⟨"F2", "c2", "a", "b", "t", "u", "e", "d"⟩, ⟨"F3", "c3", "a", "b", "t", "u", "e", "d"⟩,
        ⟨"F4", "c4", "a", "b", "t", "u", "e", "d"⟩, ⟨"F5", "c5", "a", "b", "t", "u", "e", "d"⟩])] =
      assembleFlightRecord [(⟨"", []⟩, [⟨"F1", "c1", "a", "b", "t", "u", "e", "d"⟩,
        ⟨"F2", "c2", "a", "b", "t", "u", "e", "d"⟩, ⟨"F3", "c3", "a", "b", "t", "u", "e", "d"⟩])] :=
  (claim_C6.2 ⟨"", []⟩ _ _ _ _ _ (by decide)).1

/-- C4: parse_flight_and_cabin maps "UA852 經濟艙 K" to ("UA852", "經濟艙K");
when both regex tiers fail, a whitespace split with at least 3 tokens yields
(token 0, token 1 ++ token 2), and fewer than 3 tokens yields the stripped
original text with an empty cabin code; the function never raises. -/
theorem claim_C4 :
    parse_flight_and_cabin "UA852 經濟艙 K" = ("UA852", "經濟艙K") ∧
    (∀ s : String, s.data ≠ [] →
      reMatchTop flightTier1Rx s.data = none →
      reSearch flightTier2aRx s.data = none →
      ((∀ p0 p1 p2 rest, splitWS s.data = p0 :: p1 :: p2 :: rest →
          parse_flight_and_cabin s = (String.mk p0, String.mk (p1 ++ p2))) ∧
       ((splitWS s.data).length < 3 →
          parse_flight_and_cabin s = (String.mk (pyStrip s.data), "")))) := by
  constructor
  · decide
  · intro s hne h1 h2
    constructor
    · intro p0 p1 p2 rest hsplit
      unfold parse_flight_and_cabin
      rw [if_neg hne, h1, h2, hsplit]
    · intro hlen
      unfold parse_flight_and_cabin
      rw [if_neg hne, h1, h2]
      rcases hsp : splitWS s.data with _ | ⟨a, _ | ⟨b, _ | ⟨c, t⟩⟩⟩
      · rfl
      · rfl
      · rfl
      · rw [hsp] at hlen
        simp only [List.length_cons] at hlen
        omega

theorem claim_C4_witness :
    parse_flight_and_cabin "一 二 三" = (String.mk "一".data, String.mk ("二".data ++ "三".data)) :=
  ((claim_C4.2 "一 二 三" (by decide) (by decide) (by decide)).1) "一".data "二".data "三".data []
    (by decide)

/-- C8 counterexample: a baggage row whose airport pair equals the pair of
outbound slot 2 is nevertheless assigned 回程行李1, because inbound slot 1
holds the same pair and the reconciler checks 去程 then 回程 at each slot index
in turn — so the claim that any outbound-pair match yields direction 去程 is
false. -/
theorem claim_C8_counterexample :
    outSlotMatch c8FlightDetails 2 (some "AAA") (some "BBB") = true ∧
    bagAirports c8BaggageRow = (some "AAA", some "BBB") ∧
    (extract_and_clean_baggage_data [c8BaggageRow] c8FlightDetails).info =
      [("回程行李1", some "20公斤")] ∧
    alGet (extract_and_clean_baggage_data [c8BaggageRow] c8FlightDetails).info
      "去程行李1" = none := by
  refine ⟨by decide, by decide, by decide, by decide⟩

/-- C8 (amended): a row matching outbound slot i is assigned the key
去程行李 with the next 1-based outbound index provided no inbound slot j < i
also matches (the reconciler checks 去程 then 回程 at each slot index 1..3 in
order and the first match wins); a row matching no slot of either direction
increments the anomaly counter instead of being silently dropped or assigned. -/
theorem claim_C8_amended :
    (∀ (details : List (String × String)) (st : BagState) (row : BaggageRow)
        (dep arr : Option String),
      bagAirports row = (dep, arr) →
      (∃ i, 1 ≤ i ∧ i ≤ 3 ∧ outSlotMatch details i dep arr = true ∧
        ∀ j, 1 ≤ j → j < i → retSlotMatch details j dep arr = false) →
      processBagRow details st row =
        { st with info := alSet st.info ("去程行李" ++ natStr (st.outboundCounter + 1))
                            (bagCleanedInfo row),
                  outboundCounter := st.outboundCounter + 1 }) ∧
    (∀ (details : List (String × String)) (st : BagState) (row : BaggageRow),
      journeyType details (bagAirports row).1 (bagAirports row).2 = none →
      processBagRow details st row = { st with anomalies := st.anomalies + 1 }) := by
  constructor
  · rintro details st row dep arr hair ⟨i, hi1, hi3, hout, hret⟩
    have hjt : journeyType details dep arr = some "去程" := by
      interval_cases i
      · simp [journeyType, hout]
      · have hr1 := hret 1 (by omega) (by omega)
        by_cases h1 : outSlotMatch details 1 dep arr <;>
          simp [journeyType, h1, hr1, hout]
      · have hr1 := hret 1 (by omega) (by omega)
        have hr2 := hret 2 (by omega) (by omega)
        by_cases h1 : outSlotMatch details 1 dep arr <;>
          by_cases h2 : outSlotMatch details 2 dep arr <;>
            simp [journeyType, h1, h2, hr1, hr2, hout]
    unfold processBagRow
    rw [hair]
    simp only [hjt]
  · intro details st row hjt
    unfold processBagRow
    rcases hair : bagAirports row with ⟨dep, arr⟩
    rw [hair] at hjt
    simp only [hjt]

theorem claim_C8_amended_witness :
    processBagRow
      (alSet (alSet initFlightRecord "去程起飛機場1" "AAA") "去程降落機場1" "BBB")
      ⟨[], 0, 0, 0⟩
      { segment_text := "AAA 台北 － BBB", flight_num_text := "YY9", adult_baggage_text := "2件" } =
    ⟨[("去程行李1", some "2件")], 1, 0, 0⟩ :=
  (claim_C8_amended.1
    (alSet (alSet initFlightRecord "去程起飛機場1" "AAA") "去程降落機場1" "BBB")
    ⟨[], 0, 0, 0⟩
    { segment_text := "AAA 台北 － BBB", flight_num_text := "YY9", adult_baggage_text := "2件" }
    (some "AAA") (some "BBB") (by decide)
    ⟨1, by omega, by omega, by decide, fun j hj hlt => by omega⟩).trans (by decide)

theorem pyDigit_toNat_bounds (c : Char) (h : pyDigit c = true) :
    48 ≤ c.toNat ∧ c.toNat ≤ 57 := by
  unfold pyDigit Char.isDigit at h
  simp only [Bool.and_eq_true, decide_eq_true_eq] at h
  exact ⟨h.1, h.2⟩

theorem digitsToNat_foldl_lt (ds : List Char) :
    ∀ a : Nat, (∀ c ∈ ds, pyDigit c = true) →
      List.foldl (fun a c => 10 * a + (c.toNat - '0'.toNat)) a ds < (a + 1) * 10 ^ ds.length := by
  induction ds with
  | nil => intro a _; simpa using Nat.lt_succ_self a
  | cons c t ih =>
    intro a h
    have hc := pyDigit_toNat_bounds c (h c (List.mem_cons_self c t))
    have h2 : ∀ x ∈ t, pyDigit x = true := fun x hx => h x (List.mem_cons_of_mem c hx)
    have h3 := ih (10 * a + (c.toNat - '0'.toNat)) h2
    calc List.foldl (fun a c => 10 * a + (c.toNat - '0'.toNat)) a (c :: t)
        = List.foldl (fun a c => 10 * a + (c.toNat - '0'.toNat))
            (10 * a + (c.toNat - '0'.toNat)) t := by rw [List.foldl_cons]
      _ < (10 * a + (c.toNat - '0'.toNat) + 1) * 10 ^ t.length := h3
      _ ≤ ((a + 1) * 10) * 10 ^ t.length := by
          refine Nat.mul_le_mul_right _ ?_
          have h0 : '0'.toNat = 48 := rfl
          omega
      _ = (a + 1) * 10 ^ (c :: t).length := by
          rw [List.length_cons, pow_succ]
          ring

theorem digitsToNat_lt (ds : List Char) (h : ∀ c ∈ ds, pyDigit c = true) :
    digitsToNat ds < 10 ^ ds.length := by
  have := digitsToNat_foldl_lt ds 0 h
  simpa [digitsToNat] using this

theorem pyFloatBody_frac (t ip fr : List Char) (hb : pyFloatBody t = some (ip, fr))
    (hfr : fr ≠ []) :
    t = ip ++ '.' :: fr ∧ (∀ c ∈ fr, pyDigit c = true) := by
  unfold pyFloatBody at hb
  rcases hdw : t.dropWhile pyDigit with _ | ⟨c, fr'⟩ <;> rw [hdw] at hb <;> dsimp only at hb
  · split at hb
    · rcases Option.some.inj hb with h2
      exact absurd (congrArg Prod.snd h2).symm hfr
    · exact absurd hb (by simp)
  · split at hb
    · rename_i hcond
      rcases Option.some.inj hb with h2
      have hip : ip = t.takeWhile pyDigit := (congrArg Prod.fst h2).symm
      have hfr2 : fr = fr' := (congrArg Prod.snd h2).symm
      subst hip
      subst hfr2
      constructor
      · conv_lhs => rw [← List.takeWhile_append_dropWhile (p := pyDigit) (l := t)]
        rw [hdw, hcond.1]
      · intro x hx
        exact List.all_eq_true.mp hcond.2.1 x hx
    · exact absurd hb (by simp)

theorem ratTrunc_eq_floor (q : ℚ) (h : 0 ≤ q) : ratTrunc q = ⌊q⌋ := by
  unfold ratTrunc
  rw [if_pos (Rat.num_nonneg.mpr h), Rat.floor_def]
  rw [show q.num = ((q.num.toNat : Nat) : Int) from
    (Int.toNat_of_nonneg (Rat.num_nonneg.mpr h)).symm]
  exact (Int.ofNat_tdiv _ _).symm

theorem ratTrunc_mkRat_nat (n d : Nat) :
    ratTrunc (mkRat (n : Int) d) = ((n / d : Nat) : Int) := by
  have he : mkRat (n : Int) d = (n : ℚ) / (d : ℚ) := by
    rw [Rat.mkRat_eq_divInt, Rat.divInt_eq_div]
    norm_num
  rw [he, ratTrunc_eq_floor _ (by positivity), Rat.floor_natCast_div_natCast]
  exact (Int.ofNat_tdiv n d).symm

theorem ratTrunc_neg (q : ℚ) : ratTrunc (-q) = -(ratTrunc q) := by
  unfold ratTrunc
  rw [Rat.num_neg_eq_neg_num, Rat.den_neg_eq_den]
  rcases lt_trichotomy q.num 0 with h | h | h
  · rw [if_pos (by omega), if_neg (by omega)]
    simp
  · simp [h]
  · rw [if_neg (by omega), if_pos (by omega), neg_neg]

/-- C9: parse_int truncates decimal numerals — when the text, cleaned of
spaces and half-width or full-width commas, parses as a float with a
non-empty fractional part, the result is the signed integer part (truncation
toward zero), not 0. -/
theorem claim_C9 (s : List Char) (neg : Bool) (ip fr : List Char)
    (hp : pyFloatParts (s.filter fun c => !(c = ' ' || c = ',' || c = '，')) =
      some (neg, ip, fr))
    (hfr : fr ≠ []) :
    parse_int s = (if neg then -(digitsToNat ip : Int) else (digitsToNat ip : Int)) := by
  have hD : 0 < 10 ^ fr.length := Nat.pos_pow_of_pos _ (by omega)
  unfold pyFloatParts at hp
  rcases hsg : pySign (pyStrip (s.filter fun c => !(c = ' ' || c = ',' || c = '，')))
    with ⟨sg, t⟩
  rw [hsg] at hp
  dsimp only at hp
  rcases hmb : pyFloatBody t with _ | ⟨ip2, fr2⟩ <;> rw [hmb] at hp
  · simp at hp
  simp only [Option.map_some', Option.some.injEq, Prod.mk.injEq] at hp
  obtain ⟨rfl, rfl, rfl⟩ := hp
  obtain ⟨ht, hdig⟩ := pyFloatBody_frac t ip2 fr2 hmb hfr
  have hint : pyIntOfChars (s.filter fun c => !(c = ' ' || c = ',' || c = '，')) = none := by
    unfold pyIntOfChars
    rw [hsg]
    dsimp only
    have hdd : decDigits t = none := by
      unfold decDigits
      rw [if_neg]
      rintro ⟨-, hall⟩
      have hmem : '.' ∈ t := by rw [ht]; simp
      have := List.all_eq_true.mp hall '.' hmem
      simp [pyDigit, Char.isDigit] at this
    rw [hdd]
    rfl
  have hflt : pyFloatOfChars (s.filter fun c => !(c = ' ' || c = ',' || c = '，')) =
      some (if sg then
        -(mkRat ((digitsToNat ip2 * 10 ^ fr2.length + digitsToNat fr2 : Nat) : Int)
          (10 ^ fr2.length))
        else mkRat ((digitsToNat ip2 * 10 ^ fr2.length + digitsToNat fr2 : Nat) : Int)
          (10 ^ fr2.length)) := by
    unfold pyFloatOfChars pyFloatParts
    rw [hsg]
    dsimp only
    rw [hmb]
    rfl
  have htr : ratTrunc (mkRat ((digitsToNat ip2 * 10 ^ fr2.length + digitsToNat fr2 : Nat) : Int)
      (10 ^ fr2.length)) = (digitsToNat ip2 : Int) := by
    rw [ratTrunc_mkRat_nat]
    congr 1
    rw [Nat.mul_comm, Nat.mul_add_div hD,
      Nat.div_eq_of_lt (digitsToNat_lt fr2 hdig), Nat.add_zero]
  unfold parse_int
  dsimp only
  rw [hint, hflt]
  cases sg
  · simpa using htr
  · simpa [ratTrunc_neg] using htr

theorem claim_C9_witness : parse_int "123.9".data = 123 :=
  (claim_C9 "123.9".data false ['1', '2', '3'] ['9'] (by decide) (by decide)).trans (by decide)

theorem dc_digit (k : Nat) (hk : k < 10) : pyDigit (Nat.digitChar k) = true := by
  interval_cases k <;> decide

theorem dc_not_space (k : Nat) (hk : k < 10) : pySpace (Nat.digitChar k) = false := by
  interval_cases k <;> decide

theorem dc_toNat (k : Nat) (hk : k < 10) : (Nat.digitChar k).toNat = 48 + k := by
  interval_cases k <;> decide

theorem dc_ne (k : Nat) (hk : k < 10) (c : Char) (hc : pyDigit c = false) :
    Nat.digitChar k ≠ c := by
  intro h
  rw [← h] at hc
  rw [dc_digit k hk] at hc
  exact Bool.true_eq_false.mp hc

theorem natDigitsAux_fuel_irrel (n : Nat) : ∀ f1 f2, n < f1 → n < f2 →
    natDigitsAux f1 n = natDigitsAux f2 n := by
  induction n using Nat.strong_induction_on with
  | _ n ih =>
    intro f1 f2 h1 h2
    rcases f1 with _ | f1
    · omega
    rcases f2 with _ | f2
    · omega
    unfold natDigitsAux
    by_cases h10 : n < 10
    · rw [if_pos h10, if_pos h10]
    · rw [if_neg h10, if_neg h10]
      have hlt : n / 10 < n := Nat.div_lt_self (by omega) (by omega)
      rw [ih (n / 10) hlt f1 f2 (by omega) (by omega)]

theorem natDigitsRepr4 (y : Nat) (h1 : 1000 ≤ y) (h2 : y ≤ 9999) :
    natDigitsRepr y = [Nat.digitChar (y / 1000), Nat.digitChar (y / 100 % 10),
      Nat.digitChar (y / 10 % 10), Nat.digitChar (y % 10)] := by
  unfold natDigitsRepr
  show natDigitsAux (y + 1) y = _
  unfold natDigitsAux
  rw [if_neg (by omega)]
  rw [natDigitsAux_fuel_irrel (y / 10) y (y / 10 + 1) (by omega) (by omega)]
  unfold natDigitsAux
  rw [if_neg (by omega)]
  rw [natDigitsAux_fuel_irrel (y / 10 / 10) (y / 10) (y / 10 / 10 + 1) (by omega) (by omega)]
  unfold natDigitsAux
  rw [if_neg (by omega)]
  rw [natDigitsAux_fuel_irrel (y / 10 / 10 / 10) (y / 10 / 10) (y / 10 / 10 / 10 + 1)
    (by omega) (by omega)]
  unfold natDigitsAux
  rw [if_pos (by omega)]
  have e1 : y / 10 / 10 = y / 100 := by omega
  rw [e1]
  have e2 : y / 100 / 10 = y / 1000 := by omega
  rw [e2]
  simp

theorem digitsToNat_pad2 (n : Nat) (h : n < 100) : digitsToNat (pad2 n) = n := by
  unfold pad2 digitsToNat
  simp only [List.foldl_cons, List.foldl_nil]
  rw [dc_toNat (n / 10) (by omega), dc_toNat (n % 10) (by omega)]
  have h0 : '0'.toNat = 48 := rfl
  omega

theorem digitsToNat_natDigitsRepr4 (y : Nat) (h1 : 1000 ≤ y) (h2 : y ≤ 9999) :
    digitsToNat (natDigitsRepr y) = y := by
  rw [natDigitsRepr4 y h1 h2]
  unfold digitsToNat
  simp only [List.foldl_cons, List.foldl_nil]
  rw [dc_toNat (y / 1000) (by omega), dc_toNat (y / 100 % 10) (by omega),
    dc_toNat (y / 10 % 10) (by omega), dc_toNat (y % 10) (by omega)]
  have h0 : '0'.toNat = 48 := rfl
  omega

theorem removeParensAux_no_lparen : ∀ (fuel : Nat) (s : List Char), s.length < fuel →
    '(' ∉ s → removeParensAux fuel s = s := by
  intro fuel
  induction fuel with
  | zero => intro s h; omega
  | succ f ih =>
    intro s hlen hmem
    rcases s with _ | ⟨c, rest⟩
    · rfl
    · unfold removeParensAux
      rw [if_neg]
      · rw [ih rest (by simp at hlen ⊢; omega) (fun hr => hmem (List.mem_cons_of_mem c hr))]
      · rintro ⟨rfl, -⟩
        exact hmem (List.mem_cons_self _ _)

theorem indexOf_append_rparen (w ys : List Char) (hw : ')' ∉ w) :
    (w ++ ')' :: ys).indexOf ')' = w.length := by
  induction w with
  | nil => simp [List.indexOf_cons]
  | cons c t ih =>
    have hc : c ≠ ')' := fun h => hw (h ▸ List.mem_cons_self c t)
    have ht : ')' ∉ t := fun h => hw (List.mem_cons_of_mem c h)
    simp only [List.cons_append, List.indexOf_cons, List.length_cons]
    have hce : (c == ')') = false := by simpa using hc
    rw [hce]
    simp [ih ht]
  
theorem removeParensAux_strip : ∀ (fuel : Nat) (xs w ys : List Char),
    (xs ++ '(' :: (w ++ ')' :: ys)).length < fuel →
    '(' ∉ xs → ')' ∉ w → '(' ∉ ys →
    removeParensAux fuel (xs ++ '(' :: (w ++ ')' :: ys)) = xs ++ ys := by
  intro fuel
  induction fuel with
  | zero => intro xs w ys h; omega
  | succ f ih =>
    intro xs w ys hlen hxs hw hys
    rcases xs with _ | ⟨c, xt⟩
    · simp only [List.nil_append]
      unfold removeParensAux
      rw [if_pos ⟨rfl, by simp⟩]
      rw [indexOf_append_rparen w ys hw]
      have hdrop : (w ++ ')' :: ys).drop (w.length + 1) = ys := by
        rw [show w.length + 1 = w.length + 1 from rfl, ← List.drop_drop]
        rw [List.drop_left]
        rfl
      rw [hdrop]
      rw [removeParensAux_no_lparen f ys (by simp [List.length_append] at hlen ⊢; omega) hys]
    · have hc : c ≠ '(' := fun h => hxs (h ▸ List.mem_cons_self c xt)
      have hxt : '(' ∉ xt := fun h => hxs (List.mem_cons_of_mem c h)
      simp only [List.cons_append]
      unfold removeParensAux
      rw [if_neg (by rintro ⟨rfl, -⟩; exact hc rfl)]
      rw [ih xt w ys (by simp [List.length_append] at hlen ⊢; omega) hxt hw hys]

theorem removeParens_no_lparen (s : List Char) (h : '(' ∉ s) : removeParens s = s :=
  removeParensAux_no_lparen _ s (by omega) h

theorem removeParens_strip (xs w ys : List Char) (hxs : '(' ∉ xs) (hw : ')' ∉ w)
    (hys : '(' ∉ ys) :
    removeParens (xs ++ '(' :: (w ++ ')' :: ys)) = xs ++ ys :=
  removeParensAux_strip _ xs w ys (by omega) hxs hw hys

theorem dropWhile_eq_self_of_all (p : Char → Bool) (s : List Char)
    (h : ∀ c ∈ s, p c = false) : s.dropWhile p = s := by
  rcases s with _ | ⟨c, t⟩
  · rfl
  · rw [List.dropWhile_cons, if_neg]
    simp [h c (List.mem_cons_self c t)]

theorem pyStrip_of_ends (c b : Char) (mid : List Char) (hc : pySpace c = false)
    (hb : pySpace b = false) :
    pyStrip (c :: (mid ++ [b])) = c :: (mid ++ [b]) := by
  unfold pyStrip
  rw [List.dropWhile_cons, if_neg (by simp [hc])]
  rw [show (c :: (mid ++ [b])).reverse = b :: (mid.reverse ++ [c]) by simp]
  rw [List.dropWhile_cons, if_neg (by simp [hb])]
  simp

theorem pyStrip_all_nonspace (s : List Char) (h : ∀ c ∈ s, pySpace c = false) :
    pyStrip s = s := by
  unfold pyStrip
  rw [dropWhile_eq_self_of_all _ s h,
    dropWhile_eq_self_of_all _ s.reverse (fun c hc => h c (List.mem_reverse.mp hc)),
    List.reverse_reverse]

theorem take_two (c1 c2 : Char) (rest : List Char) :
    List.take (rest.length + 1 + 1 - rest.length) (c1 :: c2 :: rest) = [c1, c2] := by
  rw [show rest.length + 1 + 1 - rest.length = 2 by omega]
  rfl

theorem take_one (c1 : Char) (rest : List Char) :
    List.take (rest.length + 1 - rest.length) (c1 :: rest) = [c1] := by
  rw [show rest.length + 1 - rest.length = 1 by omega]
  rfl

theorem take_four (c1 c2 c3 c4 : Char) (rest : List Char) :
    List.take (rest.length + 1 + 1 + 1 + 1 - rest.length) (c1 :: c2 :: c3 :: c4 :: rest) =
      [c1, c2, c3, c4] := by
  rw [show rest.length + 1 + 1 + 1 + 1 - rest.length = 4 by omega]
  rfl

theorem strp_month {α : Type} (mo : Nat) (h1 : 1 ≤ mo) (h2 : mo ≤ 12)
    (rest : List Char) (g : Groups) (k : List Char → Groups → Option α) (r : α)
    (hk : k rest ((2, pad2 mo) :: g) = some r) :
    reMatch (.group 2 monthAltRx) (pad2 mo ++ rest) g k = some r := by
  interval_cases mo <;>
    · simp only [pad2, Nat.digitChar] at hk
      norm_num at hk
      simp [reMatch, monthAltRx, pad2, Nat.digitChar, take_two, inRange, pyDigit, Char.isDigit, hk]

theorem strp_day {α : Type} (d : Nat) (h1 : 1 ≤ d) (h2 : d ≤ 31)
    (rest : List Char) (g : Groups) (k : List Char → Groups → Option α) (r : α)
    (hk : k rest ((3, pad2 d) :: g) = some r) :
    reMatch (.group 3 dayAltRx) (pad2 d ++ rest) g k = some r := by
  interval_cases d <;>
    · simp only [pad2, Nat.digitChar] at hk
      norm_num at hk
      simp [reMatch, dayAltRx, pad2, Nat.digitChar, take_two, inRange, pyDigit, Char.isDigit, hk]

theorem strp_hour {α : Type} (h : Nat) (h2 : h ≤ 23)
    (rest : List Char) (g : Groups) (k : List Char → Groups → Option α) (r : α)
    (hk : k rest ((4, pad2 h) :: g) = some r) :
    reMatch (.group 4 hourAltRx) (pad2 h ++ rest) g k = some r := by
  interval_cases h <;>
    · simp only [pad2, Nat.digitChar] at hk
      norm_num at hk
      simp [reMatch, hourAltRx, pad2, Nat.digitChar, take_two, inRange, pyDigit, Char.isDigit, hk]

theorem strp_minute {α : Type} (mi : Nat) (h2 : mi ≤ 59)
    (rest : List Char) (g : Groups) (k : List Char → Groups → Option α) (r : α)
    (hk : k rest ((5, pad2 mi) :: g) = some r) :
    reMatch (.group 5 minuteAltRx) (pad2 mi ++ rest) g k = some r := by
  interval_cases mi <;>
    · simp only [pad2, Nat.digitChar] at hk
      norm_num at hk
      simp [reMatch, minuteAltRx, pad2, Nat.digitChar, take_two, inRange, pyDigit, Char.isDigit, hk]

theorem strp_year {α : Type} (y : Nat) (h1 : 1000 ≤ y) (h2 : y ≤ 9999)
    (rest : List Char) (g : Groups) (k : List Char → Groups → Option α) (r : α)
    (hk : k rest ((1, natDigitsRepr y) :: g) = some r) :
    reMatch (.group 1 (seqL [.cls pyDigit, .cls pyDigit, .cls pyDigit, .cls pyDigit]))
      (natDigitsRepr y ++ rest) g k = some r := by
  rw [natDigitsRepr4 y h1 h2] at hk ⊢
  have d1 := dc_digit (y / 1000) (by omega)
  have d2 := dc_digit (y / 100 % 10) (by omega)
  have d3 := dc_digit (y / 10 % 10) (by omega)
  have d4 := dc_digit (y % 10) (by omega)
  simp [reMatch, seqL, d1, d2, d3, d4, take_four, hk]

theorem reMatch_seq {α : Type} (a b : Rx) (s : List Char) (g : Groups)
    (k : List Char → Groups → Option α) :
    reMatch (.seq a b) s g k = reMatch a s g (fun s' g' => reMatch b s' g' k) := rfl

theorem reMatch_eps {α : Type} (s : List Char) (g : Groups)
    (k : List Char → Groups → Option α) : reMatch .eps s g k = k s g := rfl

theorem reMatch_lits_one {α : Type} (c : Char) (s : List Char) (g : Groups)
    (k : List Char → Groups → Option α) :
    reMatch (.lits [c]) (c :: s) g k = k s g := by
  simp [reMatch, List.isPrefixOf]

theorem reMatch_wsplus_pad2 {α : Type} (h : Nat) (hh : h ≤ 23) (t : List Char)
    (g : Groups) (k : List Char → Groups → Option α) :
    reMatch (.plusCls pySpace) (' ' :: (pad2 h ++ t)) g k = k (pad2 h ++ t) g := by
  have hns : pySpace (Nat.digitChar (h / 10)) = false := dc_not_space _ (by omega)
  have hsp : pySpace ' ' = true := by decide
  simp [reMatch, pad2, starGreedy, hns, hsp]

theorem strp_full (y mo d h mi : Nat) (hy1 : 1000 ≤ y) (hy2 : y ≤ 9999)
    (hmo1 : 1 ≤ mo) (hmo2 : mo ≤ 12) (hd1 : 1 ≤ d) (hd2 : d ≤ 31)
    (hh : h ≤ 23) (hmi : mi ≤ 59) :
    reMatchRem strptimeRx
      (natDigitsRepr y ++ '/' :: (pad2 mo ++ '/' :: (pad2 d ++ ' ' :: (pad2 h ++ ':' :: pad2 mi)))) =
    some ([], [(5, pad2 mi), (4, pad2 h), (3, pad2 d), (2, pad2 mo), (1, natDigitsRepr y)]) := by
  unfold reMatchRem strptimeRx
  simp only [seqL, List.foldr]
  rw [reMatch_seq]
  apply strp_year y hy1 hy2
  beta_reduce
  rw [reMatch_seq, reMatch_lits_one, reMatch_seq]
  apply strp_month mo hmo1 hmo2
  beta_reduce
  rw [reMatch_seq, reMatch_lits_one, reMatch_seq]
  apply strp_day d hd1 hd2
  beta_reduce
  rw [reMatch_seq, reMatch_wsplus_pad2 h hh, reMatch_seq]
  apply strp_hour h hh
  beta_reduce
  rw [reMatch_seq, reMatch_lits_one]
  conv_lhs => rw [show pad2 mi = pad2 mi ++ ([] : List Char) from (List.append_nil _).symm]
  rw [reMatch_seq]
  apply strp_minute mi hmi
  beta_reduce
  rw [reMatch_eps]

theorem pad2_not_mem (c : Char) (n : Nat) (hn : n < 100) (hc : pyDigit c = false) :
    c ∉ pad2 n := by
  intro hmem
  simp [pad2] at hmem
  rcases hmem with h | h
  · exact dc_ne (n / 10) (by omega) c hc h.symm
  · exact dc_ne (n % 10) (by omega) c hc h.symm

theorem pyStrip_pad2 (n : Nat) (hn : n < 100) : pyStrip (pad2 n) = pad2 n := by
  apply pyStrip_all_nonspace
  intro c hc
  simp [pad2] at hc
  rcases hc with rfl | rfl
  · exact dc_not_space _ (by omega)
  · exact dc_not_space _ (by omega)

theorem pyStrip_natDigitsRepr (y : Nat) (h1 : 1000 ≤ y) (h2 : y ≤ 9999) :
    pyStrip (natDigitsRepr y) = natDigitsRepr y := by
  apply pyStrip_all_nonspace
  intro c hc
  rw [natDigitsRepr4 y h1 h2] at hc
  simp at hc
  rcases hc with rfl | rfl | rfl | rfl
  · exact dc_not_space _ (by omega)
  · exact dc_not_space _ (by omega)
  · exact dc_not_space _ (by omega)
  · exact dc_not_space _ (by omega)

theorem lparen_not_mem_core (mo d h mi : Nat) (hmo : mo ≤ 12) (hd : d ≤ 31)
    (hh : h ≤ 23) (hmi : mi ≤ 59) :
    '(' ∉ pad2 mo ++ '/' :: (pad2 d ++ ' ' :: (pad2 h ++ ':' :: pad2 mi)) := by
  intro hmem
  simp only [List.mem_append, List.mem_cons] at hmem
  rcases hmem with h1 | h1 | h1 | h1 | h1 | h1
  · exact pad2_not_mem '(' mo (by omega) (by decide) h1
  · exact absurd h1 (by decide)
  · exact pad2_not_mem '(' d (by omega) (by decide) h1
  · exact absurd h1 (by decide)
  · exact pad2_not_mem '(' h (by omega) (by decide) h1
  · rcases h1 with h1 | h1
    · exact absurd h1 (by decide)
    · exact pad2_not_mem '(' mi (by omega) (by decide) h1

theorem pyStrip_core (mo d h mi : Nat) (hmo : mo ≤ 12) (hd : d ≤ 31)
    (hh : h ≤ 23) (hmi : mi ≤ 59) :
    pyStrip (pad2 mo ++ '/' :: (pad2 d ++ ' ' :: (pad2 h ++ ':' :: pad2 mi))) =
      pad2 mo ++ '/' :: (pad2 d ++ ' ' :: (pad2 h ++ ':' :: pad2 mi)) := by
  have hshape : pad2 mo ++ '/' :: (pad2 d ++ ' ' :: (pad2 h ++ ':' :: pad2 mi)) =
      Nat.digitChar (mo / 10) :: ([Nat.digitChar (mo % 10), '/', Nat.digitChar (d / 10),
        Nat.digitChar (d % 10), ' ', Nat.digitChar (h / 10), Nat.digitChar (h % 10), ':',
        Nat.digitChar (mi / 10)] ++ [Nat.digitChar (mi % 10)]) := by
    simp [pad2]
  rw [hshape, pyStrip_of_ends _ _ _ (dc_not_space _ (by omega)) (dc_not_space _ (by omega))]

theorem pyStrptime_composed (y mo d h mi : Nat) (hy1 : 1000 ≤ y) (hy2 : y ≤ 9999)
    (hmo1 : 1 ≤ mo) (hmo2 : mo ≤ 12) (hd1 : 1 ≤ d) (hd2 : d ≤ daysInMonth y mo)
    (hh : h ≤ 23) (hmi : mi ≤ 59) :
    pyStrptime (natDigitsRepr y ++ '/' ::
      (pad2 mo ++ '/' :: (pad2 d ++ ' ' :: (pad2 h ++ ':' :: pad2 mi)))) =
    some { year := y, month := mo, day := d, hour := h, minute := mi } := by
  have hd31 : d ≤ 31 := by
    have : daysInMonth y mo ≤ 31 := by
      unfold daysInMonth
      split <;> [split <;> omega; split <;> omega]
    omega
  unfold pyStrptime
  rw [strp_full y mo d h mi hy1 hy2 hmo1 hmo2 hd1 hd31 hh hmi]
  dsimp only
  rw [if_neg (by simp : ¬(([] : List Char) ≠ []))]
  have hg1 : grpD [(5, pad2 mi), (4, pad2 h), (3, pad2 d), (2, pad2 mo),
      (1, natDigitsRepr y)] 1 = natDigitsRepr y := rfl
  have hg2 : grpD [(5, pad2 mi), (4, pad2 h), (3, pad2 d), (2, pad2 mo),
      (1, natDigitsRepr y)] 2 = pad2 mo := rfl
  have hg3 : grpD [(5, pad2 mi), (4, pad2 h), (3, pad2 d), (2, pad2 mo),
      (1, natDigitsRepr y)] 3 = pad2 d := rfl
  have hg4 : grpD [(5, pad2 mi), (4, pad2 h), (3, pad2 d), (2, pad2 mo),
      (1, natDigitsRepr y)] 4 = pad2 h := rfl
  have hg5 : grpD [(5, pad2 mi), (4, pad2 h), (3, pad2 d), (2, pad2 mo),
      (1, natDigitsRepr y)] 5 = pad2 mi := rfl
  rw [hg1, hg2, hg3, hg4, hg5]
  rw [pyStrip_pad2 mi (by omega), pyStrip_pad2 h (by omega), pyStrip_pad2 d (by omega),
    pyStrip_pad2 mo (by omega), pyStrip_natDigitsRepr y hy1 hy2]
  rw [digitsToNat_pad2 mi (by omega), digitsToNat_pad2 h (by omega),
    digitsToNat_pad2 d (by omega), digitsToNat_pad2 mo (by omega),
    digitsToNat_natDigitsRepr4 y hy1 hy2]
  rw [if_pos]
  exact ⟨by omega, by omega, by omega, by omega, by omega, hd2, by omega, by omega⟩
theorem lparen_not_mem_xs (mo d : Nat) (hmo : mo ≤ 12) (hd : d ≤ 31) :
    '(' ∉ pad2 mo ++ '/' :: pad2 d := by
  intro hmem
  simp only [List.mem_append, List.mem_cons] at hmem
  rcases hmem with h1 | h1 | h1
  · exact pad2_not_mem '(' mo (by omega) (by decide) h1
  · exact absurd h1 (by decide)
  · exact pad2_not_mem '(' d (by omega) (by decide) h1

theorem lparen_not_mem_ys (h mi : Nat) (hh : h ≤ 23) (hmi : mi ≤ 59) :
    '(' ∉ ' ' :: (pad2 h ++ ':' :: pad2 mi) := by
  intro hmem
  simp only [List.mem_append, List.mem_cons] at hmem
  rcases hmem with h1 | h1 | h1 | h1
  · exact absurd h1 (by decide)
  · exact pad2_not_mem '(' h (by omega) (by decide) h1
  · exact absurd h1 (by decide)
  · exact pad2_not_mem '(' mi (by omega) (by decide) h1

/-- C5: `parse_date_time` accepts every valid `"MM/DD HH:MM"` and
`"MM/DD(weekday) HH:MM"` text, returning the supplied year together with the
month, day, hour and minute written in the text (the parenthesized annotation
being removed before parsing); it errors on `None` and on every text whose
cleaned form `strptime` rejects. -/
theorem claim_C5 (year mo d h mi : Nat) (w : Option (List Char))
    (hy1 : 1000 ≤ year) (hy2 : year ≤ 9999)
    (hmo1 : 1 ≤ mo) (hmo2 : mo ≤ 12) (hd1 : 1 ≤ d) (hd2 : d ≤ daysInMonth year mo)
    (hh : h ≤ 23) (hmi : mi ≤ 59)
    (hw : ∀ ws, w = some ws → ')' ∉ ws) :
    parse_date_time (some (mkDateText mo d h mi
        (match w with | none => [] | some ws => '(' :: (ws ++ [')'])))) year =
      .ok { year := year, month := mo, day := d, hour := h, minute := mi }
    ∧ parse_date_time none year = .error ()
    ∧ ∀ t : String,
        pyStrptime (natDigitsRepr year ++ '/' :: pyStrip (removeParens t.data)) = none →
        parse_date_time (some t) year = .error () := by
  refine ⟨?_, rfl, ?_⟩
  · cases w with
    | none =>
      have hm : (mkDateText mo d h mi []).data =
          pad2 mo ++ '/' :: (pad2 d ++ ' ' :: (pad2 h ++ ':' :: pad2 mi)) := by
        simp [mkDateText]
      simp only [parse_date_time, hm]
      rw [removeParens_no_lparen _ (lparen_not_mem_core mo d h mi hmo2
        (by have := hd2; have h31 : daysInMonth year mo ≤ 31 := by
              unfold daysInMonth; split <;> [split <;> omega; split <;> omega]
            omega) hh hmi)]
      rw [pyStrip_core mo d h mi hmo2
        (by have := hd2; have h31 : daysInMonth year mo ≤ 31 := by
              unfold daysInMonth; split <;> [split <;> omega; split <;> omega]
            omega) hh hmi]
      rw [pyStrptime_composed year mo d h mi hy1 hy2 hmo1 hmo2 hd1 hd2 hh hmi]
    | some ws =>
      have hd31 : d ≤ 31 := by
        have h31 : daysInMonth year mo ≤ 31 := by
          unfold daysInMonth; split <;> [split <;> omega; split <;> omega]
        omega
      have hm : (mkDateText mo d h mi ('(' :: (ws ++ [')']))).data =
          (pad2 mo ++ '/' :: pad2 d) ++
            '(' :: (ws ++ ')' :: (' ' :: (pad2 h ++ ':' :: pad2 mi))) := by
        simp [mkDateText]
      simp only [parse_date_time, hm]
      rw [removeParens_strip _ _ _ (lparen_not_mem_xs mo d hmo2 hd31)
        (hw ws rfl) (lparen_not_mem_ys h mi hh hmi)]
      rw [show (pad2 mo ++ '/' :: pad2 d) ++ (' ' :: (pad2 h ++ ':' :: pad2 mi)) =
          pad2 mo ++ '/' :: (pad2 d ++ ' ' :: (pad2 h ++ ':' :: pad2 mi)) by simp]
      rw [pyStrip_core mo d h mi hmo2 hd31 hh hmi]
      rw [pyStrptime_composed year mo d h mi hy1 hy2 hmo1 hmo2 hd1 hd2 hh hmi]
  · intro t hnone
    simp only [parse_date_time, hnone]

theorem claim_C5_witness :
    parse_date_time (some "10/15(三) 14:30") 2025 =
      .ok { year := 2025, month := 10, day := 15, hour := 14, minute := 30 }
    ∧ parse_date_time none 2025 = (.error () : Except Unit PyDateTime)
    ∧ parse_date_time (some "garbage") 2025 = .error () := by
  have hc := claim_C5 2025 10 15 14 30 (some ['三']) (by decide) (by decide)
    (by decide) (by decide) (by decide) (by decide) (by decide) (by decide)
    (by intro ws hws; injection hws with he; rw [← he]; decide)
  refine ⟨?_, hc.2.1, hc.2.2 "garbage" (by decide)⟩
  have h1 := hc.1
  have he : mkDateText 10 15 14 30
      (match (some ['三'] : Option (List Char)) with
        | none => [] | some ws => '(' :: (ws ++ [')'])) = "10/15(三) 14:30" := by decide
  rw [he] at h1
  exact h1
